import Mathlib

/-!
# Excavator firmware: command interpreter, ramping and PWM drive

A shallow embedding of `src/main.cpp` (ESP32 firmware of the web-controlled
excavator).  The C++ globals become a record, every function that touches them
takes the record and returns the new one, and the calls into the hardware and
network layers (`ledcWrite`, `webSocket.sendTXT`) are returned as a list of
effects in program order.  `Serial` logging is not modelled.

C++ `int` values are modelled by `Int`; the results below keep every stored
speed inside `[-255, 255]`, where no 32-bit operation of the program overflows.
The one place where a wider value can appear, the result of `String::toInt`,
saturates to the 32-bit range explicitly.

A WebSocket text payload is a `String`; it may hold any character, an
embedded NUL included, as `String((char*)payload, length)` copies `length`
bytes.  The Arduino `String` operations the handler calls (`==`, `indexOf`,
`substring`, `trim`, `length`, `toInt`) are not part of the repository; they
are modelled by their library meaning.  Comparison with a string literal is
`strcmp` and `indexOf` is `strchr`, so both look only at the characters before
the first NUL; `substring`, `trim` and `length` work on the whole buffer;
`trim` strips C `isspace` characters at both ends; `toInt` is C `atol`, which
reads an optional sign and the decimal digits that follow and yields 0 when
there are none.
-/

namespace Excavator

/-! ## Constants (main.cpp:45-51) -/

def LEFT_L_CH : Nat := 0
def LEFT_R_CH : Nat := 1
def RIGHT_L_CH : Nat := 2
def RIGHT_R_CH : Nat := 3
def BASE_L_CH : Nat := 4
def BASE_R_CH : Nat := 5

/-! ## Effects and global state -/

/-- Calls that leave the firmware: a duty written to a PWM channel, or a text
frame sent to WebSocket client `num`. -/
inductive Effect where
  | ledcWrite (ch : Nat) (duty : Int)
  | sendTXT (num : Nat) (text : String)
deriving DecidableEq, Repr

/-- The six speed globals of main.cpp:58-64. -/
structure Globals where
  leftTrackSpeed : Int
  rightTrackSpeed : Int
  baseSpeed : Int
  leftTrackApplied : Int
  rightTrackApplied : Int
  baseApplied : Int
deriving DecidableEq, Repr

/-- Values of the globals at their definitions: every speed is 0. -/
def Globals.boot : Globals :=
  { leftTrackSpeed := 0, rightTrackSpeed := 0, baseSpeed := 0,
    leftTrackApplied := 0, rightTrackApplied := 0, baseApplied := 0 }

/-! ## Arduino helpers used by the source -/

/-- Arduino `constrain(amt, low, high)`. -/
def constrain (amt low high : Int) : Int :=
  if amt < low then low else if amt > high then high else amt

/-- C `abs` on `int`. -/
def abs (s : Int) : Int := if s < 0 then -s else s

/-- C `isspace` in the "C" locale: space, `\t`, `\n`, `\v`, `\f`, `\r`. -/
def isspace (c : Char) : Bool :=
  c.toNat == 32 || (9 ≤ c.toNat && c.toNat ≤ 13)

/-- C `isdigit`. -/
def isdigit (c : Char) : Bool :=
  48 ≤ c.toNat && c.toNat ≤ 57

/-- The NUL character, which ends a C string. -/
def NUL : Char := Char.ofNat 0

/-- The C string a buffer holds: its characters before the first NUL. -/
def cstr (s : String) : List Char := s.data.takeWhile (fun c => c != NUL)

/-- `String::operator==(const char*)`, that is `String::equals`: `strcmp` of the
buffer with the literal, which compares the two C strings. -/
def equals (s literal : String) : Prop := cstr s = cstr literal

instance (s literal : String) : Decidable (equals s literal) := by
  unfold equals
  infer_instance

/-- `String::indexOf(ch)`, which is `strchr` on the buffer: position of the
first occurrence before the first NUL, `-1` when there is none. -/
def indexOfFrom (ch : Char) : List Char → Nat → Int
  | [], _ => -1
  | c :: cs, i =>
    if c = ch then (i : Int)
    else if c = NUL then -1
    else indexOfFrom ch cs (i + 1)

def indexOf (s : String) (ch : Char) : Int := indexOfFrom ch s.data 0

/-- `String::substring(from, to)` for `0 ≤ from ≤ to`. -/
def substring (s : String) (lo hi : Int) : String :=
  ⟨(s.data.take hi.toNat).drop lo.toNat⟩

/-- `String::substring(from)`: up to the end of the string. -/
def substringFrom (s : String) (lo : Int) : String :=
  ⟨s.data.drop lo.toNat⟩

/-- `String::trim()`: strips `isspace` characters at both ends. -/
def trim (s : String) : String :=
  ⟨((s.data.dropWhile isspace).reverse.dropWhile isspace).reverse⟩

/-- Value of the longest run of decimal digits at the head of the input,
continuing from accumulator `acc`. -/
def digitsValue (acc : Nat) : List Char → Nat
  | [] => acc
  | c :: cs => if isdigit c then digitsValue (acc * 10 + (c.toNat - 48)) cs else acc

/-- Saturation of `strtol` to the range of a 32-bit `long`. -/
def saturateLong (v : Int) : Int :=
  if v < -2147483648 then -2147483648 else if v > 2147483647 then 2147483647 else v

/-- C `atol` (`strtol(s, NULL, 10)`): skips leading white space, reads an
optional sign and the decimal digits that follow, yields 0 when there are
none. -/
def atol (s : List Char) : Int :=
  match s.dropWhile isspace with
  | [] => 0
  | c :: cs =>
    if c = '-' then saturateLong (-(digitsValue 0 cs : Int))
    else if c = '+' then saturateLong (digitsValue 0 cs)
    else saturateLong (digitsValue 0 (c :: cs))

/-- `String::toInt()`. -/
def toInt (s : String) : Int := atol s.data

/-! ## Motor control functions (main.cpp:76-136) -/

def driveBTS7960 (lpwmCh rpwmCh : Nat) (speed : Int) : List Effect :=
  let speed := constrain speed (-255) 255
  if speed > 0 then
    [Effect.ledcWrite lpwmCh speed, Effect.ledcWrite rpwmCh 0]
  else if speed < 0 then
    [Effect.ledcWrite lpwmCh 0, Effect.ledcWrite rpwmCh (-speed)]
  else
    [Effect.ledcWrite lpwmCh 0, Effect.ledcWrite rpwmCh 0]

def normalizeSpeed (s : Int) : Int :=
  if s = 0 then 0
  else if abs s < 60 then (if s > 0 then 60 else -60)
  else s

def STEP : Int := 3

/-- New value of `currentSpeed` after the body of `rampMotor`, before `moveFn`
is called. -/
def rampStep (currentSpeed targetSpeed : Int) : Int :=
  if currentSpeed < targetSpeed then
    let c := currentSpeed + STEP
    if c > targetSpeed then targetSpeed else c
  else if currentSpeed > targetSpeed then
    let c := currentSpeed - STEP
    if c < targetSpeed then targetSpeed else c
  else currentSpeed

/-- `rampMotor(currentSpeed, targetSpeed, moveFn)`: the updated reference
parameter together with the effects of `moveFn(currentSpeed)`. -/
def rampMotor (currentSpeed targetSpeed : Int) (moveFn : Int → List Effect) :
    Int × List Effect :=
  let currentSpeed := rampStep currentSpeed targetSpeed
  (currentSpeed, moveFn currentSpeed)

def moveLeftTrack (speed : Int) : List Effect := driveBTS7960 LEFT_L_CH LEFT_R_CH speed

def moveRightTrack (speed : Int) : List Effect := driveBTS7960 RIGHT_L_CH RIGHT_R_CH speed

def rotateBase (speed : Int) : List Effect := driveBTS7960 BASE_L_CH BASE_R_CH speed

/-! ## WebSocket event handler (main.cpp:140-263) -/

inductive WStype where
  | DISCONNECTED
  | CONNECTED
  | TEXT
  | BIN
  | OTHER
deriving DecidableEq, Repr

/-- The `WStype_TEXT` case of `webSocketEvent`, main.cpp:156-256. -/
def handleText (g : Globals) (num : Nat) (msg : String) : Globals × List Effect :=
  let sepIndex := indexOf msg ':'
  if equals msg "stop" then
    ({ g with leftTrackSpeed := 0, rightTrackSpeed := 0, baseSpeed := 0 },
      [Effect.sendTXT num ("VALID STOP COMMAND --- " ++ msg)])
  else if equals msg "stopTracks" then
    ({ g with leftTrackSpeed := 0, rightTrackSpeed := 0 },
      [Effect.sendTXT num ("VALID STOP COMMAND --- " ++ msg)])
  else if equals msg "stopBase" then
    ({ g with baseSpeed := 0 },
      [Effect.sendTXT num ("VALID STOP COMMAND --- " ++ msg)])
  else if sepIndex ≠ -1 then
    let component := substring msg 0 sepIndex
    let speedStr := trim (substringFrom msg (sepIndex + 1))
    let speed := toInt speedStr
    let speedValid : Bool := decide (speedStr.length > 0 ∧ speed ≥ -255 ∧ speed ≤ 255)
    if equals component "leftTrack" ∧ speedValid then
      ({ g with leftTrackSpeed := speed },
        [Effect.sendTXT num ("VALID LEFT TRACK COMMAND --- " ++ msg)])
    else if equals component "rightTrack" ∧ speedValid then
      ({ g with rightTrackSpeed := speed },
        [Effect.sendTXT num ("VALID RIGHT TRACK COMMAND --- " ++ msg)])
    else if equals component "base" ∧ speedValid then
      ({ g with baseSpeed := speed },
        [Effect.sendTXT num ("VALID BASE COMMAND --- " ++ msg)])
    else if equals component "forward" ∧ speedValid then
      ({ g with leftTrackSpeed := speed, rightTrackSpeed := speed },
        [Effect.sendTXT num ("VALID FORWARD COMMAND --- " ++ msg)])
    else if equals component "turnRight" ∧ speedValid then
      ({ g with leftTrackSpeed := speed, rightTrackSpeed := 0 },
        [Effect.sendTXT num ("VALID TURN COMMAND --- " ++ msg)])
    else if equals component "turnLeft" ∧ speedValid then
      ({ g with leftTrackSpeed := 0, rightTrackSpeed := speed },
        [Effect.sendTXT num ("VALID TURN COMMAND --- " ++ msg)])
    else
      (g, [Effect.sendTXT num ("INVALID COMMAND --- " ++ msg)])
  else
    (g, [Effect.sendTXT num "MALFORMED COMMAND --- NO \":\" GIVEN"])

def webSocketEvent (g : Globals) (num : Nat) (type : WStype) (payload : String) :
    Globals × List Effect :=
  match type with
  | WStype.DISCONNECTED => (g, moveLeftTrack 0 ++ moveRightTrack 0 ++ rotateBase 0)
  | WStype.CONNECTED => (g, [Effect.sendTXT num "Hello from ESP32 WebSocket Server!"])
  | WStype.TEXT => handleText g num payload
  | WStype.BIN => (g, [])
  | WStype.OTHER => (g, [])

/-! ## Control loop (main.cpp:353-369) -/

/-- The motor part of `loop()`: normalise the three targets, then ramp the
three actuators in the order left track, right track, base. -/
def loop (g : Globals) : Globals × List Effect :=
  let leftTarget := normalizeSpeed g.leftTrackSpeed
  let rightTarget := normalizeSpeed g.rightTrackSpeed
  let baseTarget := normalizeSpeed g.baseSpeed
  let l := rampMotor g.leftTrackApplied leftTarget moveLeftTrack
  let r := rampMotor g.rightTrackApplied rightTarget moveRightTrack
  let b := rampMotor g.baseApplied baseTarget rotateBase
  ({ g with leftTrackApplied := l.1, rightTrackApplied := r.1, baseApplied := b.1 },
    l.2 ++ r.2 ++ b.2)

/-! ## Runs of the firmware -/

/-- What can happen between two returns to the scheduler: a WebSocket event
delivered by `webSocket.loop()`, or the motor part of one `loop()` pass. -/
inductive Event where
  | ws (num : Nat) (type : WStype) (payload : String)
  | tick
deriving DecidableEq, Repr

def step (g : Globals) : Event → Globals × List Effect
  | Event.ws num type payload => webSocketEvent g num type payload
  | Event.tick => loop g

/-- Final globals and the effects, in order, of a sequence of events. -/
def run (g : Globals) : List Event → Globals × List Effect
  | [] => (g, [])
  | e :: es =>
    let r := step g e
    let rest := run r.1 es
    (rest.1, r.2 ++ rest.2)

/-! ## Vocabulary for the statements -/

/-- All six speed globals lie in `[-255, 255]`. -/
def InRange (g : Globals) : Prop :=
  (-255 ≤ g.leftTrackSpeed ∧ g.leftTrackSpeed ≤ 255) ∧
  (-255 ≤ g.rightTrackSpeed ∧ g.rightTrackSpeed ≤ 255) ∧
  (-255 ≤ g.baseSpeed ∧ g.baseSpeed ≤ 255) ∧
  (-255 ≤ g.leftTrackApplied ∧ g.leftTrackApplied ≤ 255) ∧
  (-255 ≤ g.rightTrackApplied ∧ g.rightTrackApplied ≤ 255) ∧
  (-255 ≤ g.baseApplied ∧ g.baseApplied ≤ 255)

instance (g : Globals) : Decidable (InRange g) := by
  unfold InRange
  infer_instance

/-- The message compares equal to one of the three stop tokens of
main.cpp:165-183. -/
def isStopToken (msg : String) : Prop :=
  equals msg "stop" ∨ equals msg "stopTracks" ∨ equals msg "stopBase"

instance (msg : String) : Decidable (isStopToken msg) := by
  unfold isStopToken
  infer_instance

/-- Local `component` of the `WStype_TEXT` case (main.cpp:190). -/
def componentOf (msg : String) : String := substring msg 0 (indexOf msg ':')

/-- Local `speedStr` of the `WStype_TEXT` case after `trim()` (main.cpp:191-192). -/
def speedStrOf (msg : String) : String := trim (substringFrom msg (indexOf msg ':' + 1))

/-- Local `speedValid` of the `WStype_TEXT` case (main.cpp:195). -/
def speedValidOf (msg : String) : Prop :=
  (speedStrOf msg).length > 0 ∧ toInt (speedStrOf msg) ≥ -255 ∧ toInt (speedStrOf msg) ≤ 255

instance (msg : String) : Decidable (speedValidOf msg) := by
  unfold speedValidOf
  infer_instance

/-- The component names the dispatch of main.cpp:201-243 compares against. -/
def components : List String :=
  ["leftTrack", "rightTrack", "base", "forward", "turnRight", "turnLeft"]

/-- Target update of each recognised component for a given speed, following the
table of the command grammar: `leftTrack`, `rightTrack` and `base` set their own
target; `forward` sets both tracks; `turnRight` sets left and zeroes right;
`turnLeft` zeroes left and sets right.  Other names change nothing. -/
def setTargets (g : Globals) (component : String) (speed : Int) : Globals :=
  if component = "leftTrack" then { g with leftTrackSpeed := speed }
  else if component = "rightTrack" then { g with rightTrackSpeed := speed }
  else if component = "base" then { g with baseSpeed := speed }
  else if component = "forward" then { g with leftTrackSpeed := speed, rightTrackSpeed := speed }
  else if component = "turnRight" then { g with leftTrackSpeed := speed, rightTrackSpeed := 0 }
  else if component = "turnLeft" then { g with leftTrackSpeed := 0, rightTrackSpeed := speed }
  else g

/-- Acknowledgment sent for each recognised component, before the echoed
message (main.cpp:203-238). -/
def ackOf (component : String) : String :=
  if component = "leftTrack" then "VALID LEFT TRACK COMMAND --- "
  else if component = "rightTrack" then "VALID RIGHT TRACK COMMAND --- "
  else if component = "base" then "VALID BASE COMMAND --- "
  else if component = "forward" then "VALID FORWARD COMMAND --- "
  else "VALID TURN COMMAND --- "

/-- An optional sign followed by one or more decimal digits and nothing else:
the text of a signed decimal integer. -/
def isSignedDecimal (s : List Char) : Bool :=
  match s with
  | [] => false
  | c :: cs =>
    if c = '-' ∨ c = '+' then !cs.isEmpty && cs.all isdigit
    else (c :: cs).all isdigit

/-- The text begins with an optionally signed decimal number: an optional sign
directly followed by a digit. -/
def beginsWithNumber (s : List Char) : Bool :=
  match s with
  | [] => false
  | c :: cs =>
    if c = '-' ∨ c = '+' then
      match cs with
      | [] => false
      | d :: _ => isdigit d
    else isdigit c

/-- The deadzone rule in the words of the specification: a raw speed that is 0
or has magnitude at least 60 is kept; a smaller positive one becomes 60, a
smaller negative one becomes -60. -/
def deadzoneRule (r : Int) : Int :=
  if r = 0 ∨ abs r ≥ 60 then r
  else if 0 < r ∧ r < 60 then 60
  else -60

/-- Applied speed after `n` successive calls `rampMotor(applied, t, moveFn)`
with the same target `t`. -/
def rampRepeat (moveFn : Int → List Effect) (t : Int) : Nat → Int → Int
  | 0, a => a
  | n + 1, a => rampRepeat moveFn t n (rampMotor a t moveFn).1

/-- Number of calls the specification gives for convergence:
`ceil(|t - a| / STEP)`. -/
def rampTicks (a t : Int) : Nat := ((t - a).natAbs + 2) / 3

/-- Duty of every PWM channel after one effect: `ledcWrite` replaces the duty
of its channel, a text frame changes none. -/
def writeDuty (d : Nat → Int) : Effect → Nat → Int
  | Effect.ledcWrite ch duty => fun c => if c = ch then duty else d c
  | Effect.sendTXT _ _ => d

/-- Duty last written to every PWM channel after a sequence of effects,
starting from the duties `d`. -/
def duties (d : Nat → Int) (es : List Effect) : Nat → Int :=
  es.foldl writeDuty d

/-- The applied speed of each actuator is what its two channels carry: the
duties of the channel pair are those `driveBTS7960` writes for the applied
speed. -/
def Commanded (g : Globals) (d : Nat → Int) : Prop :=
  [Effect.ledcWrite LEFT_L_CH (d LEFT_L_CH), Effect.ledcWrite LEFT_R_CH (d LEFT_R_CH)] =
    moveLeftTrack g.leftTrackApplied ∧
  [Effect.ledcWrite RIGHT_L_CH (d RIGHT_L_CH), Effect.ledcWrite RIGHT_R_CH (d RIGHT_R_CH)] =
    moveRightTrack g.rightTrackApplied ∧
  [Effect.ledcWrite BASE_L_CH (d BASE_L_CH), Effect.ledcWrite BASE_R_CH (d BASE_R_CH)] =
    rotateBase g.baseApplied

instance (g : Globals) (d : Nat → Int) : Decidable (Commanded g d) := by
  unfold Commanded
  infer_instance

/-- Final value of the local flag `validCommand` of the `WStype_TEXT` case: set
by the three stop branches (main.cpp:174-188) and by the six component
branches (main.cpp:206-242). -/
def validCommand (msg : String) : Prop :=
  isStopToken msg ∨
    (indexOf msg ':' ≠ -1 ∧ componentOf msg ∈ components ∧ speedValidOf msg)

instance (msg : String) : Decidable (validCommand msg) := by
  unfold validCommand
  infer_instance

/-- The text `s` begins with `p`. -/
def beginsWith (p s : String) : Prop := p.data <+: s.data

/-- The text `s` ends with `q`. -/
def endsWith (q s : String) : Prop := q.data <:+ s.data

/-- Text of the one frame the `WStype_TEXT` case sends for a message, read off
the `sendTXT` calls of main.cpp:169-252. -/
def replyOf (msg : String) : String :=
  if isStopToken msg then "VALID STOP COMMAND --- " ++ msg
  else if indexOf msg ':' = -1 then "MALFORMED COMMAND --- NO \":\" GIVEN"
  else if componentOf msg ∈ components ∧ speedValidOf msg then ackOf (componentOf msg) ++ msg
  else "INVALID COMMAND --- " ++ msg

/-! ## C strings -/

theorem takeWhile_noNUL (l : List Char) (h : NUL ∉ l) :
    l.takeWhile (fun c => c != NUL) = l := by
  induction l with
  | nil => rfl
  | cons x xs ih =>
    have hx : (x != NUL) = true := by
      rw [bne_iff_ne]
      exact fun e => h (by simp [e])
    have hxs : NUL ∉ xs := fun e => h (by simp [e])
    rw [List.takeWhile_cons, hx, if_pos rfl, ih hxs]

theorem cstr_of_noNUL (s : String) (h : NUL ∉ s.data) : cstr s = s.data :=
  takeWhile_noNUL s.data h

/-- On texts without NUL, comparison with a literal is equality of the texts. -/
theorem equals_iff_eq (s literal : String) (hs : NUL ∉ s.data) (hl : NUL ∉ literal.data) :
    equals s literal ↔ s = literal := by
  unfold equals
  rw [cstr_of_noNUL s hs, cstr_of_noNUL literal hl]
  constructor
  · intro h
    exact String.ext h
  · intro h
    rw [h]

theorem cstr_append (a b : List Char) (h : NUL ∉ a) :
    (a ++ b).takeWhile (fun c => c != NUL) = a ++ b.takeWhile (fun c => c != NUL) := by
  induction a with
  | nil => rfl
  | cons x xs ih =>
    have hx : (x != NUL) = true := by
      rw [bne_iff_ne]
      exact fun e => h (by simp [e])
    have hxs : NUL ∉ xs := fun e => h (by simp [e])
    rw [List.cons_append, List.takeWhile_cons, hx, if_pos rfl, ih hxs]
    rfl

theorem indexOfFrom_append (ch : Char) (a b : List Char) (h : ch ∉ a) (hn : NUL ∉ a)
    (i : Nat) : indexOfFrom ch (a ++ ch :: b) i = ((i + a.length : Nat) : Int) := by
  induction a generalizing i with
  | nil => simp [indexOfFrom]
  | cons x xs ih =>
    have hx : x ≠ ch := fun e => h (by simp [e])
    have hxs : ch ∉ xs := fun e => h (by simp [e])
    have hz : x ≠ NUL := fun e => hn (by simp [e])
    have hzs : NUL ∉ xs := fun e => hn (by simp [e])
    rw [List.cons_append, indexOfFrom, if_neg hx, if_neg hz, ih hxs hzs, List.length_cons]
    congr 1
    omega

/-- A position found by `indexOf` splits the text at the first occurrence, and
the part before it holds neither the character nor a NUL. -/
theorem indexOfFrom_split (ch : Char) (l : List Char) (i : Nat)
    (h : indexOfFrom ch l i ≠ -1) :
    ∃ a b : List Char, l = a ++ ch :: b ∧ ch ∉ a ∧ NUL ∉ a := by
  induction l generalizing i with
  | nil => exact absurd rfl h
  | cons x xs ih =>
    by_cases hx : x = ch
    · exact ⟨[], xs, by rw [hx]; rfl, by simp, by simp⟩
    · by_cases hz : x = NUL
      · rw [indexOfFrom, if_neg hx, if_pos hz] at h
        exact absurd rfl h
      · rw [indexOfFrom, if_neg hx, if_neg hz] at h
        obtain ⟨a, b, e, h1, h2⟩ := ih (i + 1) h
        refine ⟨x :: a, b, by rw [e]; rfl, ?_, ?_⟩
        · intro hm
          rcases List.mem_cons.mp hm with e1 | e1
          · exact hx e1.symm
          · exact h1 e1
        · intro hm
          rcases List.mem_cons.mp hm with e1 | e1
          · exact hz e1.symm
          · exact h2 e1

theorem indexOfFrom_eq_neg_one (ch : Char) (l : List Char) (hc : ch ≠ NUL)
    (h : ch ∉ l.takeWhile (fun c => c != NUL)) (i : Nat) : indexOfFrom ch l i = -1 := by
  induction l generalizing i with
  | nil => rfl
  | cons x xs ih =>
    by_cases hz : x = NUL
    · have hx : x ≠ ch := fun e => hc (e ▸ hz)
      rw [indexOfFrom, if_neg hx, if_pos hz]
    · have hb : (x != NUL) = true := by
        rw [bne_iff_ne]
        exact hz
      rw [List.takeWhile_cons, hb, if_pos rfl] at h
      have hx : x ≠ ch := fun e => h (by simp [e])
      have hxs : ch ∉ xs.takeWhile (fun c => c != NUL) := fun e => h (by simp [e])
      rw [indexOfFrom, if_neg hx, if_neg hz, ih hxs]

theorem colon_ne_NUL : ':' ≠ NUL := by decide

theorem indexOfFrom_ne_neg_one (ch : Char) (l : List Char)
    (h : ch ∈ l.takeWhile (fun c => c != NUL)) (i : Nat) : indexOfFrom ch l i ≠ -1 := by
  induction l generalizing i with
  | nil => simp at h
  | cons x xs ih =>
    by_cases hx : x = ch
    · rw [indexOfFrom, if_pos hx]
      omega
    · by_cases hz : x = NUL
      · have hb : (x != NUL) = false := by
          rw [hz]; rfl
        rw [List.takeWhile_cons, hb] at h
        simp at h
      · have hb : (x != NUL) = true := by
          rw [bne_iff_ne]
          exact hz
        rw [List.takeWhile_cons, hb, if_pos rfl] at h
        rw [indexOfFrom, if_neg hx, if_neg hz]
        rcases List.mem_cons.mp h with e | e
        · exact absurd e.symm hx
        · exact ih e _

/-- `indexOf(':')` fails exactly when the C string of the message has no `:`. -/
theorem indexOf_eq_neg_one_iff (m : String) : indexOf m ':' = -1 ↔ ':' ∉ cstr m := by
  constructor
  · intro h hmem
    exact indexOfFrom_ne_neg_one ':' _ hmem 0 h
  · intro h
    exact indexOfFrom_eq_neg_one ':' _ colon_ne_NUL h 0

/-- When `indexOf(':')` succeeds the component before the `:` holds no NUL and
no `:`, and the message is the component, the `:` and the rest. -/
theorem component_split (msg : String) (h : indexOf msg ':' ≠ -1) :
    ∃ rest : String, msg = componentOf msg ++ ":" ++ rest ∧
      ':' ∉ (componentOf msg).data ∧ NUL ∉ (componentOf msg).data := by
  obtain ⟨a, b, e, h1, h2⟩ := indexOfFrom_split ':' msg.data 0 h
  have hi : indexOf msg ':' = (a.length : Int) := by
    unfold indexOf
    rw [e, indexOfFrom_append _ _ _ h1 h2]
    simp
  have hc : componentOf msg = ⟨a⟩ := by
    unfold componentOf substring
    rw [hi, e]
    simp
  rw [hc]
  refine ⟨⟨b⟩, ?_, h1, h2⟩
  apply String.ext
  rw [String.data_append, String.data_append, e]
  simp

theorem component_equals_iff (msg literal : String) (h : indexOf msg ':' ≠ -1)
    (hl : NUL ∉ literal.data) : equals (componentOf msg) literal ↔ componentOf msg = literal := by
  obtain ⟨_, _, _, hn⟩ := component_split msg h
  exact equals_iff_eq _ _ hn hl

/-! ## Case analysis of the text handler -/

/-- Every result of `handleText` is the result of one of its eleven branches,
taken under that branch's guard. -/
theorem handleText_elim (g : Globals) (num : Nat) (msg : String)
    (P : Globals × List Effect → Prop)
    (hStop : equals msg "stop" →
      P ({ g with leftTrackSpeed := 0, rightTrackSpeed := 0, baseSpeed := 0 },
        [Effect.sendTXT num ("VALID STOP COMMAND --- " ++ msg)]))
    (hTracks : equals msg "stopTracks" →
      P ({ g with leftTrackSpeed := 0, rightTrackSpeed := 0 },
        [Effect.sendTXT num ("VALID STOP COMMAND --- " ++ msg)]))
    (hBase : equals msg "stopBase" →
      P ({ g with baseSpeed := 0 }, [Effect.sendTXT num ("VALID STOP COMMAND --- " ++ msg)]))
    (hLeft : ¬ isStopToken msg → indexOf msg ':' ≠ -1 → componentOf msg = "leftTrack" →
      speedValidOf msg →
      P ({ g with leftTrackSpeed := toInt (speedStrOf msg) },
        [Effect.sendTXT num ("VALID LEFT TRACK COMMAND --- " ++ msg)]))
    (hRight : ¬ isStopToken msg → indexOf msg ':' ≠ -1 → componentOf msg = "rightTrack" →
      speedValidOf msg →
      P ({ g with rightTrackSpeed := toInt (speedStrOf msg) },
        [Effect.sendTXT num ("VALID RIGHT TRACK COMMAND --- " ++ msg)]))
    (hRot : ¬ isStopToken msg → indexOf msg ':' ≠ -1 → componentOf msg = "base" →
      speedValidOf msg →
      P ({ g with baseSpeed := toInt (speedStrOf msg) },
        [Effect.sendTXT num ("VALID BASE COMMAND --- " ++ msg)]))
    (hFwd : ¬ isStopToken msg → indexOf msg ':' ≠ -1 → componentOf msg = "forward" →
      speedValidOf msg →
      P ({ g with leftTrackSpeed := toInt (speedStrOf msg),
                  rightTrackSpeed := toInt (speedStrOf msg) },
        [Effect.sendTXT num ("VALID FORWARD COMMAND --- " ++ msg)]))
    (hTR : ¬ isStopToken msg → indexOf msg ':' ≠ -1 → componentOf msg = "turnRight" →
      speedValidOf msg →
      P ({ g with leftTrackSpeed := toInt (speedStrOf msg), rightTrackSpeed := 0 },
        [Effect.sendTXT num ("VALID TURN COMMAND --- " ++ msg)]))
    (hTL : ¬ isStopToken msg → indexOf msg ':' ≠ -1 → componentOf msg = "turnLeft" →
      speedValidOf msg →
      P ({ g with leftTrackSpeed := 0, rightTrackSpeed := toInt (speedStrOf msg) },
        [Effect.sendTXT num ("VALID TURN COMMAND --- " ++ msg)]))
    (hInvalid : ¬ isStopToken msg → indexOf msg ':' ≠ -1 →
      ¬ (componentOf msg ∈ components ∧ speedValidOf msg) →
      P (g, [Effect.sendTXT num ("INVALID COMMAND --- " ++ msg)]))
    (hMalformed : ¬ isStopToken msg → indexOf msg ':' = -1 →
      P (g, [Effect.sendTXT num "MALFORMED COMMAND --- NO \":\" GIVEN"])) :
    P (handleText g num msg) := by
  unfold handleText
  dsimp only
  by_cases a1 : equals msg "stop"
  · rw [if_pos a1]; exact hStop a1
  rw [if_neg a1]
  by_cases a2 : equals msg "stopTracks"
  · rw [if_pos a2]; exact hTracks a2
  rw [if_neg a2]
  by_cases a3 : equals msg "stopBase"
  · rw [if_pos a3]; exact hBase a3
  rw [if_neg a3]
  have ns : ¬ isStopToken msg := by
    rintro (h | h | h) <;> contradiction
  by_cases a4 : indexOf msg ':' ≠ -1
  swap
  · rw [if_neg a4]; exact hMalformed ns (not_not.mp a4)
  rw [if_pos a4]
  by_cases v : speedValidOf msg
  · have hv : decide ((trim (substringFrom msg (indexOf msg ':' + 1))).length > 0 ∧
        toInt (trim (substringFrom msg (indexOf msg ':' + 1))) ≥ -255 ∧
        toInt (trim (substringFrom msg (indexOf msg ':' + 1))) ≤ 255) = true :=
      decide_eq_true v
    rw [hv]
    by_cases c1 : equals (substring msg 0 (indexOf msg ':')) "leftTrack"
    · rw [if_pos ⟨c1, rfl⟩]
      exact hLeft ns a4 ((component_equals_iff msg _ a4 (by decide)).mp c1) v
    rw [if_neg (fun h => c1 h.1)]
    by_cases c2 : equals (substring msg 0 (indexOf msg ':')) "rightTrack"
    · rw [if_pos ⟨c2, rfl⟩]
      exact hRight ns a4 ((component_equals_iff msg _ a4 (by decide)).mp c2) v
    rw [if_neg (fun h => c2 h.1)]
    by_cases c3 : equals (substring msg 0 (indexOf msg ':')) "base"
    · rw [if_pos ⟨c3, rfl⟩]
      exact hRot ns a4 ((component_equals_iff msg _ a4 (by decide)).mp c3) v
    rw [if_neg (fun h => c3 h.1)]
    by_cases c4 : equals (substring msg 0 (indexOf msg ':')) "forward"
    · rw [if_pos ⟨c4, rfl⟩]
      exact hFwd ns a4 ((component_equals_iff msg _ a4 (by decide)).mp c4) v
    rw [if_neg (fun h => c4 h.1)]
    by_cases c5 : equals (substring msg 0 (indexOf msg ':')) "turnRight"
    · rw [if_pos ⟨c5, rfl⟩]
      exact hTR ns a4 ((component_equals_iff msg _ a4 (by decide)).mp c5) v
    rw [if_neg (fun h => c5 h.1)]
    by_cases c6 : equals (substring msg 0 (indexOf msg ':')) "turnLeft"
    · rw [if_pos ⟨c6, rfl⟩]
      exact hTL ns a4 ((component_equals_iff msg _ a4 (by decide)).mp c6) v
    rw [if_neg (fun h => c6 h.1)]
    apply hInvalid ns a4
    rintro ⟨hm, -⟩
    simp only [components, List.mem_cons, List.mem_singleton, List.not_mem_nil, or_false] at hm
    rcases hm with h | h | h | h | h | h
    · exact c1 ((component_equals_iff msg _ a4 (by decide)).mpr h)
    · exact c2 ((component_equals_iff msg _ a4 (by decide)).mpr h)
    · exact c3 ((component_equals_iff msg _ a4 (by decide)).mpr h)
    · exact c4 ((component_equals_iff msg _ a4 (by decide)).mpr h)
    · exact c5 ((component_equals_iff msg _ a4 (by decide)).mpr h)
    · exact c6 ((component_equals_iff msg _ a4 (by decide)).mpr h)
  · have hv : decide ((trim (substringFrom msg (indexOf msg ':' + 1))).length > 0 ∧
        toInt (trim (substringFrom msg (indexOf msg ':' + 1))) ≥ -255 ∧
        toInt (trim (substringFrom msg (indexOf msg ':' + 1))) ≤ 255) = false :=
      decide_eq_false v
    rw [hv]
    simp only [Bool.false_eq_true, and_false, if_false]
    exact hInvalid ns a4 (fun h => v h.2)


/-! ## Strings -/

theorem data_colon (c field : String) :
    (c ++ ":" ++ field).data = c.data ++ ':' :: field.data := by
  simp [String.data_append]

theorem indexOf_colon (c field : String) (h : ':' ∉ c.data) (hn : NUL ∉ c.data) :
    indexOf (c ++ ":" ++ field) ':' = (c.data.length : Int) := by
  unfold indexOf
  rw [data_colon, indexOfFrom_append _ _ _ h hn]
  simp

theorem componentOf_colon (c field : String) (h : ':' ∉ c.data) (hn : NUL ∉ c.data) :
    componentOf (c ++ ":" ++ field) = c := by
  unfold componentOf substring
  rw [indexOf_colon c field h hn, data_colon]
  simp

theorem speedStrOf_colon (c field : String) (h : ':' ∉ c.data) (hn : NUL ∉ c.data) :
    speedStrOf (c ++ ":" ++ field) = trim field := by
  unfold speedStrOf substringFrom
  rw [indexOf_colon c field h hn, data_colon]
  have e : ((c.data.length : Int) + 1).toNat = c.data.length + 1 := by omega
  have d : List.drop (c.data.length + 1) (c.data ++ ':' :: field.data) = field.data := by
    rw [List.drop_append_eq_append_drop]
    simp
  rw [e, d]

theorem colon_mem_cstr (c field : String) (hn : NUL ∉ c.data) :
    ':' ∈ cstr (c ++ ":" ++ field) := by
  unfold cstr
  rw [data_colon, cstr_append _ _ hn]
  have hb : ((':' : Char) != NUL) = true := by decide
  rw [List.takeWhile_cons, hb, if_pos rfl]
  simp

theorem not_stopToken_of_colon (msg : String) (h : ':' ∈ cstr msg) : ¬ isStopToken msg := by
  rintro (e | e | e) <;> (unfold equals at e; rw [e] at h; revert h; decide)

theorem components_no_colon (c : String) (h : c ∈ components) : ':' ∉ c.data := by
  simp only [components, List.mem_cons, List.mem_singleton, List.not_mem_nil, or_false] at h
  rcases h with e | e | e | e | e | e <;> subst e <;> decide

theorem components_no_NUL (c : String) (h : c ∈ components) : NUL ∉ c.data := by
  simp only [components, List.mem_cons, List.mem_singleton, List.not_mem_nil, or_false] at h
  rcases h with e | e | e | e | e | e <;> subst e <;> decide

/-! ## Results of the text handler, branch by branch -/

theorem handleText_malformed (g : Globals) (num : Nat) (msg : String)
    (hs : ¬ isStopToken msg) (hi : indexOf msg ':' = -1) :
    handleText g num msg =
      (g, [Effect.sendTXT num "MALFORMED COMMAND --- NO \":\" GIVEN"]) := by
  apply handleText_elim g num msg (fun r => r = _)
  case hMalformed => intro _ _; rfl
  case hStop => intro e; exact absurd (Or.inl e) hs
  case hTracks => intro e; exact absurd (Or.inr (Or.inl e)) hs
  case hBase => intro e; exact absurd (Or.inr (Or.inr e)) hs
  all_goals intro _ h; exact absurd hi h

theorem handleText_invalid (g : Globals) (num : Nat) (msg : String)
    (hs : ¬ isStopToken msg) (hi : indexOf msg ':' ≠ -1)
    (hn : ¬ (componentOf msg ∈ components ∧ speedValidOf msg)) :
    handleText g num msg = (g, [Effect.sendTXT num ("INVALID COMMAND --- " ++ msg)]) := by
  apply handleText_elim g num msg (fun r => r = _)
  case hInvalid => intro _ _ _; rfl
  case hMalformed => intro _ h; exact absurd h hi
  case hStop => intro e; exact absurd (Or.inl e) hs
  case hTracks => intro e; exact absurd (Or.inr (Or.inl e)) hs
  case hBase => intro e; exact absurd (Or.inr (Or.inr e)) hs
  all_goals
    intro _ _ c v
    refine absurd ⟨?_, v⟩ hn
    rw [c]
    decide

theorem handleText_accept (g : Globals) (num : Nat) (msg : String)
    (hs : ¬ isStopToken msg) (hi : indexOf msg ':' ≠ -1)
    (hc : componentOf msg ∈ components) (hv : speedValidOf msg) :
    handleText g num msg =
      (setTargets g (componentOf msg) (toInt (speedStrOf msg)),
        [Effect.sendTXT num (ackOf (componentOf msg) ++ msg)]) := by
  apply handleText_elim g num msg (fun r => r = _)
  case hInvalid => intro _ _ h; exact absurd ⟨hc, hv⟩ h
  case hMalformed => intro _ h; exact absurd h hi
  case hStop => intro e; exact absurd (Or.inl e) hs
  case hTracks => intro e; exact absurd (Or.inr (Or.inl e)) hs
  case hBase => intro e; exact absurd (Or.inr (Or.inr e)) hs
  all_goals
    intro _ _ c _
    rw [c]
    rfl

/-- Result of a message `c:field` whose component is recognised. -/
theorem handleText_colon (g : Globals) (num : Nat) (c field : String) (hc : c ∈ components) :
    handleText g num (c ++ ":" ++ field) =
      if (trim field).length > 0 ∧ toInt (trim field) ≥ -255 ∧ toInt (trim field) ≤ 255 then
        (setTargets g c (toInt (trim field)),
          [Effect.sendTXT num (ackOf c ++ (c ++ ":" ++ field))])
      else (g, [Effect.sendTXT num ("INVALID COMMAND --- " ++ (c ++ ":" ++ field))]) := by
  have hcol := components_no_colon c hc
  have hnul := components_no_NUL c hc
  have hmem := colon_mem_cstr c field hnul
  have hs := not_stopToken_of_colon _ hmem
  have hi : indexOf (c ++ ":" ++ field) ':' ≠ -1 := indexOfFrom_ne_neg_one ':' _ hmem 0
  have e1 := componentOf_colon c field hcol hnul
  have e2 := speedStrOf_colon c field hcol hnul
  by_cases v : (trim field).length > 0 ∧ toInt (trim field) ≥ -255 ∧ toInt (trim field) ≤ 255
  · rw [if_pos v]
    have hv : speedValidOf (c ++ ":" ++ field) := by unfold speedValidOf; rw [e2]; exact v
    rw [handleText_accept g num _ hs hi (by rw [e1]; exact hc) hv, e1, e2]
  · rw [if_neg v]
    have hv : ¬ speedValidOf (c ++ ":" ++ field) := by unfold speedValidOf; rw [e2]; exact v
    exact handleText_invalid g num _ hs hi (fun h => hv h.2)

/-! ## Decimal rendering and `toInt` -/

theorem digitChar_spec : ∀ d : Nat, d < 10 →
    isdigit (Nat.digitChar d) = true ∧ (Nat.digitChar d).toNat - 48 = d := by
  decide

theorem isspace_of_isdigit (c : Char) (h : isdigit c = true) : isspace c = false := by
  unfold isdigit at h
  unfold isspace
  simp only [Bool.and_eq_true, decide_eq_true_eq] at h
  simp only [Bool.or_eq_false_iff, Bool.and_eq_false_iff, beq_eq_false_iff_ne, ne_eq,
    decide_eq_false_iff_not]
  omega

/-- With enough fuel `Nat.toDigitsCore 10` puts a non-empty block of decimal
digits in front of `ds`, and reading that block continues an accumulator
`acc` to `acc * 10 ^ length + n`. -/
theorem toDigitsCore_spec (fuel : Nat) : ∀ (n : Nat) (ds : List Char), n < fuel →
    ∃ l : List Char, Nat.toDigitsCore 10 fuel n ds = l ++ ds ∧ l ≠ [] ∧
      (∀ c ∈ l, isdigit c = true) ∧
      (∀ (acc : Nat) (rest : List Char),
        digitsValue acc (l ++ rest) = digitsValue (acc * 10 ^ l.length + n) rest) := by
  induction fuel with
  | zero => intro n ds h; omega
  | succ fuel ih =>
    intro n ds h
    have hd := digitChar_spec (n % 10) (Nat.mod_lt _ (by decide))
    unfold Nat.toDigitsCore
    dsimp only
    by_cases h0 : n / 10 = 0
    · rw [if_pos h0]
      refine ⟨[Nat.digitChar (n % 10)], rfl, by simp, ?_, ?_⟩
      · intro c hc
        rw [List.mem_singleton.mp hc]; exact hd.1
      · intro acc rest
        rw [List.singleton_append, digitsValue, if_pos hd.1, hd.2, List.length_singleton, pow_one]
        congr 1
        omega
    · rw [if_neg h0]
      obtain ⟨l, e, _, hall, hval⟩ := ih (n / 10) (Nat.digitChar (n % 10) :: ds) (by omega)
      refine ⟨l ++ [Nat.digitChar (n % 10)], by rw [e]; simp, by simp, ?_, ?_⟩
      · intro c hc
        rcases List.mem_append.mp hc with hc | hc
        · exact hall c hc
        · rw [List.mem_singleton.mp hc]; exact hd.1
      · intro acc rest
        rw [List.append_assoc, List.singleton_append, hval, digitsValue, if_pos hd.1, hd.2,
          List.length_append, List.length_singleton, pow_succ]
        congr 1
        have := Nat.div_add_mod n 10
        nlinarith

theorem toDigits_spec (n : Nat) :
    Nat.toDigits 10 n ≠ [] ∧ (∀ c ∈ Nat.toDigits 10 n, isdigit c = true) ∧
      digitsValue 0 (Nat.toDigits 10 n) = n := by
  obtain ⟨l, e, hne, hall, hval⟩ := toDigitsCore_spec (n + 1) n [] (by omega)
  have e2 : Nat.toDigits 10 n = l := by
    unfold Nat.toDigits; rw [e]; simp
  rw [e2]
  refine ⟨hne, hall, ?_⟩
  have := hval 0 []
  rw [List.append_nil] at this
  rw [this]
  simp [digitsValue]

theorem dropWhile_isspace_id (l : List Char) (h : ∀ c ∈ l.head?, isspace c = false) :
    l.dropWhile isspace = l := by
  cases l with
  | nil => rfl
  | cons x xs =>
    have : isspace x = false := h x (by simp)
    simp [List.dropWhile, this]

theorem trim_id (l : List Char) (h : ∀ c ∈ l, isspace c = false) :
    trim ⟨l⟩ = ⟨l⟩ := by
  unfold trim
  have h1 : l.dropWhile isspace = l :=
    dropWhile_isspace_id l (fun c hc => h c (List.mem_of_mem_head? hc))
  have h2 : l.reverse.dropWhile isspace = l.reverse :=
    dropWhile_isspace_id l.reverse
      (fun c hc => h c (List.mem_reverse.mp (List.mem_of_mem_head? hc)))
  simp only [h1, h2, List.reverse_reverse]

theorem toString_int_data (s : Int) :
    (0 ≤ s ∧ (toString s).data = Nat.toDigits 10 s.toNat) ∨
    (s < 0 ∧ (toString s).data = '-' :: Nat.toDigits 10 s.natAbs) := by
  cases s with
  | ofNat m => left; exact ⟨Int.ofNat_nonneg m, rfl⟩
  | negSucc m => right; exact ⟨Int.negSucc_lt_zero m, rfl⟩

/-- The decimal rendering of a 32-bit integer has no leading or trailing white space,
is not empty, and `toInt` reads the integer back. -/
theorem toInt_toString (s : Int) (hlo : -2147483648 ≤ s) (hhi : s ≤ 2147483647) :
    trim (toString s) = toString s ∧ (toString s).length > 0 ∧ toInt (toString s) = s := by
  rcases toString_int_data s with ⟨h0, e⟩ | ⟨h0, e⟩
  · obtain ⟨hne, hall, hval⟩ := toDigits_spec s.toNat
    have hsp : ∀ c ∈ (toString s).data, isspace c = false := by
      intro c hc; rw [e] at hc; exact isspace_of_isdigit c (hall c hc)
    refine ⟨trim_id _ hsp, ?_, ?_⟩
    · show (toString s).data.length > 0
      rw [e]; exact List.length_pos.mpr hne
    · unfold toInt atol
      rw [dropWhile_isspace_id _ (fun c hc => hsp c (List.mem_of_mem_head? hc)), e]
      cases hd : Nat.toDigits 10 s.toNat with
      | nil => exact absurd hd hne
      | cons x xs =>
        have hx : isdigit x = true := hall x (by rw [hd]; simp)
        have hm : x ≠ '-' := by rintro rfl; revert hx; decide
        have hp : x ≠ '+' := by rintro rfl; revert hx; decide
        dsimp only
        rw [if_neg hm, if_neg hp, ← hd, hval]
        unfold saturateLong
        split_ifs <;> omega
  · obtain ⟨hne, hall, hval⟩ := toDigits_spec s.natAbs
    have hsp : ∀ c ∈ (toString s).data, isspace c = false := by
      intro c hc; rw [e] at hc
      rcases List.mem_cons.mp hc with rfl | hc
      · decide
      · exact isspace_of_isdigit c (hall c hc)
    refine ⟨trim_id _ hsp, ?_, ?_⟩
    · show (toString s).data.length > 0
      rw [e]; simp
    · unfold toInt atol
      rw [dropWhile_isspace_id _ (fun c hc => hsp c (List.mem_of_mem_head? hc)), e]
      dsimp only
      rw [if_pos rfl, hval]
      unfold saturateLong
      split_ifs <;> omega

/-! ## Telling replies apart -/

/-- Two texts whose first `k` characters differ stay different whatever is
appended to them. -/
theorem append_ne_of_take (a b m n : String) (k : Nat)
    (ha : k ≤ a.data.length) (hb : k ≤ b.data.length)
    (hne : a.data.take k ≠ b.data.take k) : a ++ m ≠ b ++ n := by
  intro h
  have hd : (a ++ m).data.take k = (b ++ n).data.take k := by rw [h]
  rw [String.data_append, String.data_append, List.take_append_of_le_length ha,
    List.take_append_of_le_length hb] at hd
  exact hne hd

theorem ack_ne_invalid (c m n : String) : ackOf c ++ m ≠ "INVALID COMMAND --- " ++ n := by
  unfold ackOf
  split_ifs <;> exact append_ne_of_take _ _ _ _ 1 (by decide) (by decide) (by decide)

theorem ack_ne_malformed (c m : String) :
    ackOf c ++ m ≠ "MALFORMED COMMAND --- NO \":\" GIVEN" := by
  have h : ∀ n : String, ackOf c ++ m ≠ "MALFORMED COMMAND --- NO \":\" GIVEN" ++ n := by
    intro n
    unfold ackOf
    split_ifs <;> exact append_ne_of_take _ _ _ _ 1 (by decide) (by decide) (by decide)
  have := h ""
  rwa [String.append_empty] at this

theorem ack_ne_stop (c m n : String) : ackOf c ++ m ≠ "VALID STOP COMMAND --- " ++ n := by
  unfold ackOf
  split_ifs <;> exact append_ne_of_take _ _ _ _ 7 (by decide) (by decide) (by decide)

theorem invalid_ne_malformed (m : String) :
    "INVALID COMMAND --- " ++ m ≠ "MALFORMED COMMAND --- NO \":\" GIVEN" := by
  have := append_ne_of_take "INVALID COMMAND --- " "MALFORMED COMMAND --- NO \":\" GIVEN" m ""
    1 (by decide) (by decide) (by decide)
  rwa [String.append_empty] at this

theorem stop_ne_invalid (m n : String) :
    "VALID STOP COMMAND --- " ++ m ≠ "INVALID COMMAND --- " ++ n :=
  append_ne_of_take _ _ _ _ 1 (by decide) (by decide) (by decide)

theorem stop_ne_malformed (m : String) :
    "VALID STOP COMMAND --- " ++ m ≠ "MALFORMED COMMAND --- NO \":\" GIVEN" := by
  have := append_ne_of_take "VALID STOP COMMAND --- " "MALFORMED COMMAND --- NO \":\" GIVEN" m ""
    1 (by decide) (by decide) (by decide)
  rwa [String.append_empty] at this

/-! ## Fields without a number -/

theorem trim_head_not_space (s : String) : ∀ c ∈ (trim s).data.head?, isspace c = false := by
  intro c hc
  unfold trim at hc
  dsimp only at hc
  have hd := List.head?_dropWhile_not isspace s.data
  obtain ⟨t, ht⟩ := List.dropWhile_suffix isspace (l := (s.data.dropWhile isspace).reverse)
  have e : s.data.dropWhile isspace =
      ((s.data.dropWhile isspace).reverse.dropWhile isspace).reverse ++ t.reverse := by
    have := congrArg List.reverse ht
    rw [List.reverse_append, List.reverse_reverse] at this
    exact this.symm
  cases hr : ((s.data.dropWhile isspace).reverse.dropWhile isspace).reverse with
  | nil => rw [hr] at hc; simp at hc
  | cons x xs =>
    rw [hr] at hc e
    rw [e] at hd
    simp only [List.cons_append, List.head?_cons, Option.mem_def, Option.some.injEq] at hd hc
    rw [← hc]; exact hd

theorem digitsValue_zero_of_head (l : List Char) (h : ∀ c ∈ l.head?, isdigit c = false) :
    digitsValue 0 l = 0 := by
  cases l with
  | nil => rfl
  | cons x xs =>
    have : isdigit x = false := h x (by simp)
    simp [digitsValue, this]

/-- A trimmed field that does not begin with an optionally signed number reads as 0. -/
theorem toInt_trim_of_not_number (field : String)
    (h : beginsWithNumber (trim field).data = false) : toInt (trim field) = 0 := by
  have hsp := trim_head_not_space field
  unfold toInt atol
  rw [dropWhile_isspace_id _ hsp]
  cases hl : (trim field).data with
  | nil => rfl
  | cons x xs =>
    rw [hl] at h
    unfold beginsWithNumber at h
    dsimp only at h ⊢
    by_cases hm : x = '-'
    · rw [if_pos hm]
      rw [if_pos (Or.inl hm)] at h
      have : digitsValue 0 xs = 0 := by
        apply digitsValue_zero_of_head
        cases xs with
        | nil => simp
        | cons d ds => simpa using h
      rw [this]; rfl
    · rw [if_neg hm]
      by_cases hp : x = '+'
      · rw [if_pos hp]
        rw [if_pos (Or.inr hp)] at h
        have : digitsValue 0 xs = 0 := by
          apply digitsValue_zero_of_head
          cases xs with
          | nil => simp
          | cons d ds => simpa using h
        rw [this]; rfl
      · rw [if_neg hp]
        rw [if_neg (by rintro (e | e) <;> contradiction)] at h
        have : digitsValue 0 (x :: xs) = 0 :=
          digitsValue_zero_of_head _ (by simpa using h)
        rw [this]; rfl

/-! ## Range invariant -/

theorem normalizeSpeed_range (s : Int) (h : -255 ≤ s ∧ s ≤ 255) :
    -255 ≤ normalizeSpeed s ∧ normalizeSpeed s ≤ 255 := by
  unfold normalizeSpeed abs
  split_ifs <;> omega

theorem rampStep_range (a t : Int) (ha : -255 ≤ a ∧ a ≤ 255) (ht : -255 ≤ t ∧ t ≤ 255) :
    -255 ≤ rampStep a t ∧ rampStep a t ≤ 255 := by
  unfold rampStep STEP
  dsimp only
  split_ifs <;> omega

theorem loop_inRange (g : Globals) (h : InRange g) : InRange (loop g).1 := by
  obtain ⟨h1, h2, h3, h4, h5, h6⟩ := h
  refine ⟨h1, h2, h3, ?_, ?_, ?_⟩
  · exact rampStep_range _ _ h4 (normalizeSpeed_range _ h1)
  · exact rampStep_range _ _ h5 (normalizeSpeed_range _ h2)
  · exact rampStep_range _ _ h6 (normalizeSpeed_range _ h3)

theorem handleText_inRange (g : Globals) (num : Nat) (msg : String) (h : InRange g) :
    InRange (handleText g num msg).1 := by
  obtain ⟨h1, h2, h3, h4, h5, h6⟩ := h
  have z : (-255 : Int) ≤ 0 ∧ (0 : Int) ≤ 255 := by omega
  apply handleText_elim g num msg (fun r => InRange r.1)
  case hStop => intro _; exact ⟨z, z, z, h4, h5, h6⟩
  case hTracks => intro _; exact ⟨z, z, h3, h4, h5, h6⟩
  case hBase => intro _; exact ⟨h1, h2, z, h4, h5, h6⟩
  case hLeft => intro _ _ _ v; exact ⟨⟨v.2.1, v.2.2⟩, h2, h3, h4, h5, h6⟩
  case hRight => intro _ _ _ v; exact ⟨h1, ⟨v.2.1, v.2.2⟩, h3, h4, h5, h6⟩
  case hRot => intro _ _ _ v; exact ⟨h1, h2, ⟨v.2.1, v.2.2⟩, h4, h5, h6⟩
  case hFwd => intro _ _ _ v; exact ⟨⟨v.2.1, v.2.2⟩, ⟨v.2.1, v.2.2⟩, h3, h4, h5, h6⟩
  case hTR => intro _ _ _ v; exact ⟨⟨v.2.1, v.2.2⟩, z, h3, h4, h5, h6⟩
  case hTL => intro _ _ _ v; exact ⟨z, ⟨v.2.1, v.2.2⟩, h3, h4, h5, h6⟩
  case hInvalid => intro _ _ _; exact ⟨h1, h2, h3, h4, h5, h6⟩
  case hMalformed => intro _ _; exact ⟨h1, h2, h3, h4, h5, h6⟩

theorem step_inRange (g : Globals) (e : Event) (h : InRange g) : InRange (step g e).1 := by
  cases e with
  | tick => exact loop_inRange g h
  | ws num type payload =>
    cases type
    case TEXT => exact handleText_inRange g num payload h
    all_goals exact h

theorem run_inRange (es : List Event) : ∀ g : Globals, InRange g → InRange (run g es).1 := by
  induction es with
  | nil => intro g h; exact h
  | cons e es ih => intro g h; exact ih _ (step_inRange g e h)

theorem boot_inRange : InRange Globals.boot := by
  unfold InRange Globals.boot; simp

/-! ## Disconnect -/

theorem run_ticks_fixed (g : Globals) (h : (loop g).1 = g) (n : Nat) :
    (run g (List.replicate n Event.tick)).1 = g := by
  induction n with
  | zero => rfl
  | succ n ih =>
    show (run (step g Event.tick).1 (List.replicate n Event.tick)).1 = g
    show (run (loop g).1 (List.replicate n Event.tick)).1 = g
    rw [h]; exact ih

/-- C1 (code defect): handling `WStype_DISCONNECTED` writes none of the globals,
so the three target speeds keep the values they had.  After `forward:100` from
boot and a disconnect, the left and right targets are still 100, not 0. -/
theorem disconnect_keeps_targets :
    (∀ (g : Globals) (num : Nat) (payload : String),
      (webSocketEvent g num WStype.DISCONNECTED payload).1 = g) ∧
    (run Globals.boot
        [Event.ws 0 WStype.TEXT "forward:100", Event.ws 0 WStype.DISCONNECTED ""]).1 =
      { leftTrackSpeed := 100, rightTrackSpeed := 100, baseSpeed := 0,
        leftTrackApplied := 0, rightTrackApplied := 0, baseApplied := 0 } :=
  ⟨fun _ _ _ => rfl, by decide⟩

/-- C2 (code defect): `leftTrack:200` and 67 control ticks from boot give left
target 200 and left applied 200.  From there the disconnect handler writes duty
0 to both left-track channels at once (every state gives the same six zero
writes), the next control tick writes 200 to the forward channel again, and
after the disconnect and any number of ticks the left applied speed is still
200: the output neither ramps 197, 194, ... nor stays at 0. -/
theorem disconnect_then_ticks_left_200 :
    (run Globals.boot
        (Event.ws 0 WStype.TEXT "leftTrack:200" :: List.replicate 67 Event.tick)).1 =
      { leftTrackSpeed := 200, rightTrackSpeed := 0, baseSpeed := 0,
        leftTrackApplied := 200, rightTrackApplied := 0, baseApplied := 0 } ∧
    (∀ (g : Globals) (num : Nat) (payload : String),
      (webSocketEvent g num WStype.DISCONNECTED payload).2 =
        [Effect.ledcWrite 0 0, Effect.ledcWrite 1 0, Effect.ledcWrite 2 0,
         Effect.ledcWrite 3 0, Effect.ledcWrite 4 0, Effect.ledcWrite 5 0]) ∧
    (run { leftTrackSpeed := 200, rightTrackSpeed := 0, baseSpeed := 0,
           leftTrackApplied := 200, rightTrackApplied := 0, baseApplied := 0 }
        [Event.ws 0 WStype.DISCONNECTED "", Event.tick]).2 =
      [Effect.ledcWrite 0 0, Effect.ledcWrite 1 0, Effect.ledcWrite 2 0,
       Effect.ledcWrite 3 0, Effect.ledcWrite 4 0, Effect.ledcWrite 5 0,
       Effect.ledcWrite 0 200, Effect.ledcWrite 1 0, Effect.ledcWrite 2 0,
       Effect.ledcWrite 3 0, Effect.ledcWrite 4 0, Effect.ledcWrite 5 0] ∧
    (∀ n : Nat,
      (run { leftTrackSpeed := 200, rightTrackSpeed := 0, baseSpeed := 0,
             leftTrackApplied := 200, rightTrackApplied := 0, baseApplied := 0 }
          (Event.ws 0 WStype.DISCONNECTED "" :: List.replicate n Event.tick)).1.leftTrackApplied
        = 200) := by
  refine ⟨by set_option maxRecDepth 100000 in decide, fun _ _ _ => rfl, by decide, fun n => ?_⟩
  show (run _ (List.replicate n Event.tick)).1.leftTrackApplied = 200
  rw [show (step _ (Event.ws 0 WStype.DISCONNECTED "")).1 =
      ({ leftTrackSpeed := 200, rightTrackSpeed := 0, baseSpeed := 0,
         leftTrackApplied := 200, rightTrackApplied := 0, baseApplied := 0 } : Globals) from rfl]
  rw [run_ticks_fixed _ (by decide) n]

/-- C3: in every state reachable from boot (all targets and applied speeds 0)
by a finite sequence of WebSocket events (text messages with arbitrary
payload, disconnects, connects, binary frames) and control ticks, the three
target speeds and the three applied speeds lie in `[-255, 255]`. -/
theorem reachable_speeds_in_range (es : List Event) :
    InRange (run Globals.boot es).1 :=
  run_inRange es Globals.boot boot_inRange

/-! ## Command interpreter -/

/-- C4: for every recognised component `c` and every 32-bit integer `s`, the
message `c:` followed by the decimal rendering of `s` is accepted (the targets
are written as the component prescribes and the component's VALID
acknowledgment is sent) if and only if `-255 ≤ s ≤ 255`, and it is rejected as
an invalid command (globals unchanged, INVALID COMMAND reply) if and only if
`s` is outside that range.  `leftTrack:255` and `leftTrack:-255` are accepted;
`leftTrack:256`, `leftTrack:-256` and `leftTrack:` are rejected as invalid. -/
theorem decimal_speed_accepted_iff_in_range :
    (∀ (g : Globals) (num : Nat) (c : String) (s : Int), c ∈ components →
      -2147483648 ≤ s → s ≤ 2147483647 →
      ((handleText g num (c ++ ":" ++ toString s) =
          (setTargets g c s, [Effect.sendTXT num (ackOf c ++ (c ++ ":" ++ toString s))])
        ↔ (-255 ≤ s ∧ s ≤ 255)) ∧
       (handleText g num (c ++ ":" ++ toString s) =
          (g, [Effect.sendTXT num ("INVALID COMMAND --- " ++ (c ++ ":" ++ toString s))])
        ↔ ¬ (-255 ≤ s ∧ s ≤ 255)))) ∧
    (∀ (g : Globals) (num : Nat),
      handleText g num "leftTrack:255" =
        ({ g with leftTrackSpeed := 255 },
          [Effect.sendTXT num "VALID LEFT TRACK COMMAND --- leftTrack:255"]) ∧
      handleText g num "leftTrack:-255" =
        ({ g with leftTrackSpeed := -255 },
          [Effect.sendTXT num "VALID LEFT TRACK COMMAND --- leftTrack:-255"]) ∧
      handleText g num "leftTrack:256" =
        (g, [Effect.sendTXT num "INVALID COMMAND --- leftTrack:256"]) ∧
      handleText g num "leftTrack:-256" =
        (g, [Effect.sendTXT num "INVALID COMMAND --- leftTrack:-256"]) ∧
      handleText g num "leftTrack:" =
        (g, [Effect.sendTXT num "INVALID COMMAND --- leftTrack:"])) := by
  refine ⟨?_, fun g num => ⟨rfl, rfl, rfl, rfl, rfl⟩⟩
  intro g num c s hc hlo hhi
  obtain ⟨ht, hlen, hval⟩ := toInt_toString s hlo hhi
  have key := handleText_colon g num c (toString s) hc
  rw [ht, hval] at key
  by_cases hr : -255 ≤ s ∧ s ≤ 255
  · rw [if_pos ⟨hlen, hr.1, hr.2⟩] at key
    refine ⟨⟨fun _ => hr, fun _ => key⟩, ⟨fun h => ?_, fun h => absurd hr h⟩⟩
    rw [key] at h
    have e : ackOf c ++ (c ++ ":" ++ toString s) =
        "INVALID COMMAND --- " ++ (c ++ ":" ++ toString s) := by
      simpa using congrArg Prod.snd h
    exact absurd e (ack_ne_invalid _ _ _)
  · rw [if_neg (fun h => hr ⟨h.2.1, h.2.2⟩)] at key
    refine ⟨⟨fun h => ?_, fun h => absurd h hr⟩, ⟨fun _ => hr, fun _ => key⟩⟩
    rw [key] at h
    have e : "INVALID COMMAND --- " ++ (c ++ ":" ++ toString s) =
        ackOf c ++ (c ++ ":" ++ toString s) := by
      simpa using congrArg Prod.snd h
    exact absurd e.symm (ack_ne_invalid _ _ _)

theorem decimal_speed_accepted_iff_in_range_witness :
    "leftTrack" ∈ components ∧ (-2147483648 : Int) ≤ -256 ∧ (-256 : Int) ≤ 2147483647 ∧
    "leftTrack" ++ ":" ++ toString (-256 : Int) = "leftTrack:-256" ∧
    (handleText Globals.boot 0 ("leftTrack" ++ ":" ++ toString (-256 : Int)) =
        (Globals.boot,
          [Effect.sendTXT 0 ("INVALID COMMAND --- " ++ ("leftTrack" ++ ":" ++ toString (-256 : Int)))])
      ↔ ¬ ((-255 : Int) ≤ -256 ∧ (-256 : Int) ≤ 255)) :=
  ⟨by decide, by decide, by decide, by decide,
    (decimal_speed_accepted_iff_in_range.1 Globals.boot 0 "leftTrack" (-256)
      (by decide) (by decide) (by decide)).2⟩

/-- C5: for every prior state and every speed field that reads as a speed `s`
in `[-255, 255]`, the accepted message `<component>:<field>` yields exactly the
globals the table prescribes: `leftTrack` sets only the left target, `rightTrack`
only the right target, `base` only the base target, `forward` sets left and
right to `s`, `turnRight` sets left to `s` and right to 0, `turnLeft` sets left
to 0 and right to `s`; every other global keeps its value. -/
theorem component_table (g : Globals) (num : Nat) (field : String) (s : Int)
    (hne : (trim field).length > 0) (hs : toInt (trim field) = s)
    (hlo : -255 ≤ s) (hhi : s ≤ 255) :
    (handleText g num ("leftTrack:" ++ field)).1 = { g with leftTrackSpeed := s } ∧
    (handleText g num ("rightTrack:" ++ field)).1 = { g with rightTrackSpeed := s } ∧
    (handleText g num ("base:" ++ field)).1 = { g with baseSpeed := s } ∧
    (handleText g num ("forward:" ++ field)).1 =
      { g with leftTrackSpeed := s, rightTrackSpeed := s } ∧
    (handleText g num ("turnRight:" ++ field)).1 =
      { g with leftTrackSpeed := s, rightTrackSpeed := 0 } ∧
    (handleText g num ("turnLeft:" ++ field)).1 =
      { g with leftTrackSpeed := 0, rightTrackSpeed := s } := by
  have key : ∀ c : String, c ∈ components →
      (handleText g num (c ++ ":" ++ field)).1 = setTargets g c s := by
    intro c hc
    rw [handleText_colon g num c field hc, if_pos ⟨hne, by omega, by omega⟩, hs]
  exact ⟨key "leftTrack" (by decide), key "rightTrack" (by decide), key "base" (by decide),
    key "forward" (by decide), key "turnRight" (by decide), key "turnLeft" (by decide)⟩

theorem component_table_witness :
    (trim "80").length > 0 ∧ toInt (trim "80") = 80 ∧
    (handleText { leftTrackSpeed := 10, rightTrackSpeed := 20, baseSpeed := 30,
                  leftTrackApplied := 1, rightTrackApplied := 2, baseApplied := 3 }
        0 ("turnRight:" ++ "80")).1 =
      { leftTrackSpeed := 80, rightTrackSpeed := 0, baseSpeed := 30,
        leftTrackApplied := 1, rightTrackApplied := 2, baseApplied := 3 } :=
  ⟨by decide, by decide,
    (component_table _ 0 "80" 80 (by decide) (by decide) (by decide) (by decide)).2.2.2.2.1⟩

/-- C6, as stated, fails: the payload `stop`, NUL, `xyz` differs from the three
tokens, yet the comparison `msg == "stop"` looks only at the characters before
the NUL, so the message is treated as a stop command: the three targets are
zeroed and the one reply sent begins with `VALID STOP COMMAND --- `. -/
theorem stop_with_nul_treated_as_stop :
    ("stop\x00xyz" : String) ≠ "stop" ∧ ("stop\x00xyz" : String) ≠ "stopTracks" ∧
    ("stop\x00xyz" : String) ≠ "stopBase" ∧
    (handleText { leftTrackSpeed := 100, rightTrackSpeed := -50, baseSpeed := 7,
                  leftTrackApplied := 1, rightTrackApplied := 2, baseApplied := 3 }
        0 "stop\x00xyz").1 =
      { leftTrackSpeed := 0, rightTrackSpeed := 0, baseSpeed := 0,
        leftTrackApplied := 1, rightTrackApplied := 2, baseApplied := 3 } ∧
    (handleText { leftTrackSpeed := 100, rightTrackSpeed := -50, baseSpeed := 7,
                  leftTrackApplied := 1, rightTrackApplied := 2, baseApplied := 3 }
        0 "stop\x00xyz").2 = [Effect.sendTXT 0 (replyOf "stop\x00xyz")] ∧
    beginsWith "VALID STOP COMMAND --- " (replyOf "stop\x00xyz") := by
  refine ⟨by decide, by decide, by decide, by decide, by decide, ?_⟩
  unfold beginsWith
  decide

/-- C6, amended: for every prior state, `stop` zeroes the three targets,
`stopTracks` zeroes the left and right targets and keeps the base target,
`stopBase` zeroes the base target and keeps the track targets (no other global
changes).  For messages without an embedded NUL character matching is exact
and case-sensitive: such a message different from the three tokens never gets
the stop acknowledgment, and when it has no `:` it is rejected as malformed with
the globals unchanged, as `Stop` and `stop ` (trailing blank) are. -/
theorem stop_tokens_exact_without_nul :
    (∀ (g : Globals) (num : Nat),
      handleText g num "stop" =
        ({ g with leftTrackSpeed := 0, rightTrackSpeed := 0, baseSpeed := 0 },
          [Effect.sendTXT num "VALID STOP COMMAND --- stop"]) ∧
      handleText g num "stopTracks" =
        ({ g with leftTrackSpeed := 0, rightTrackSpeed := 0 },
          [Effect.sendTXT num "VALID STOP COMMAND --- stopTracks"]) ∧
      handleText g num "stopBase" =
        ({ g with baseSpeed := 0 },
          [Effect.sendTXT num "VALID STOP COMMAND --- stopBase"])) ∧
    (∀ (g : Globals) (num : Nat) (msg : String), NUL ∉ msg.data →
      msg ≠ "stop" → msg ≠ "stopTracks" → msg ≠ "stopBase" →
      (handleText g num msg).2 ≠ [Effect.sendTXT num ("VALID STOP COMMAND --- " ++ msg)] ∧
      (':' ∉ msg.data →
        handleText g num msg =
          (g, [Effect.sendTXT num "MALFORMED COMMAND --- NO \":\" GIVEN"]))) ∧
    (∀ (g : Globals) (num : Nat),
      handleText g num "Stop" =
        (g, [Effect.sendTXT num "MALFORMED COMMAND --- NO \":\" GIVEN"]) ∧
      handleText g num "stop " =
        (g, [Effect.sendTXT num "MALFORMED COMMAND --- NO \":\" GIVEN"])) := by
  refine ⟨fun g num => ⟨rfl, rfl, rfl⟩, ?_, fun g num => ⟨rfl, rfl⟩⟩
  intro g num msg hn h1 h2 h3
  have n1 : ¬ equals msg "stop" := fun e => h1 ((equals_iff_eq _ _ hn (by decide)).mp e)
  have n2 : ¬ equals msg "stopTracks" :=
    fun e => h2 ((equals_iff_eq _ _ hn (by decide)).mp e)
  have n3 : ¬ equals msg "stopBase" := fun e => h3 ((equals_iff_eq _ _ hn (by decide)).mp e)
  have hs : ¬ isStopToken msg := by
    rintro (e | e | e)
    · exact n1 e
    · exact n2 e
    · exact n3 e
  constructor
  · have sep : ∀ a : String, a.data.take 7 ≠ "VALID STOP COMMAND --- ".data.take 7 →
        7 ≤ a.data.length →
        [Effect.sendTXT num (a ++ msg)] ≠ [Effect.sendTXT num ("VALID STOP COMMAND --- " ++ msg)] := by
      intro a hne hlen h
      have e : a ++ msg = "VALID STOP COMMAND --- " ++ msg := by simpa using h
      exact append_ne_of_take _ _ _ _ 7 hlen (by decide) hne e
    apply handleText_elim g num msg (fun r => r.2 ≠ _)
    case hStop => intro e; exact absurd e n1
    case hTracks => intro e; exact absurd e n2
    case hBase => intro e; exact absurd e n3
    case hMalformed =>
      intro _ _ h
      have e : "MALFORMED COMMAND --- NO \":\" GIVEN" = "VALID STOP COMMAND --- " ++ msg := by
        simpa using h
      exact stop_ne_malformed msg e.symm
    all_goals
      intros
      exact sep _ (by decide) (by decide)
  · intro hc
    have hc2 : ':' ∉ cstr msg := by rw [cstr_of_noNUL msg hn]; exact hc
    exact handleText_malformed g num msg hs ((indexOf_eq_neg_one_iff msg).mpr hc2)

theorem stop_tokens_exact_without_nul_witness :
    NUL ∉ ("STOP" : String).data ∧
    ("STOP" : String) ≠ "stop" ∧ ("STOP" : String) ≠ "stopTracks" ∧
    ("STOP" : String) ≠ "stopBase" ∧ ':' ∉ ("STOP" : String).data ∧
    handleText Globals.boot 0 "STOP" =
      (Globals.boot, [Effect.sendTXT 0 "MALFORMED COMMAND --- NO \":\" GIVEN"]) :=
  ⟨by decide, by decide, by decide, by decide, by decide,
    (stop_tokens_exact_without_nul.2.1 Globals.boot 0 "STOP" (by decide) (by decide)
      (by decide) (by decide)).2 (by decide)⟩

/-- C7: for every prior state and every text message whose reply is the
MALFORMED COMMAND rejection or the INVALID COMMAND rejection, handling the
message leaves the globals as they were; in particular the left, right and base
target speeds keep their values. -/
theorem rejected_keeps_targets (g : Globals) (num : Nat) (msg : String)
    (h : (handleText g num msg).2 =
          [Effect.sendTXT num "MALFORMED COMMAND --- NO \":\" GIVEN"] ∨
        (handleText g num msg).2 = [Effect.sendTXT num ("INVALID COMMAND --- " ++ msg)]) :
    (handleText g num msg).1 = g ∧
    (handleText g num msg).1.leftTrackSpeed = g.leftTrackSpeed ∧
    (handleText g num msg).1.rightTrackSpeed = g.rightTrackSpeed ∧
    (handleText g num msg).1.baseSpeed = g.baseSpeed := by
  have main : (handleText g num msg).1 = g := by
    revert h
    have sep : ∀ a : String, a.data.take 1 = ['V'] → 1 ≤ a.data.length →
        ¬ ([Effect.sendTXT num (a ++ msg)] =
            [Effect.sendTXT num "MALFORMED COMMAND --- NO \":\" GIVEN"] ∨
          [Effect.sendTXT num (a ++ msg)] =
            [Effect.sendTXT num ("INVALID COMMAND --- " ++ msg)]) := by
      intro a hv hlen h
      rcases h with h | h
      · have e : a ++ msg = "MALFORMED COMMAND --- NO \":\" GIVEN" := by simpa using h
        rw [← String.append_empty "MALFORMED COMMAND --- NO \":\" GIVEN"] at e
        exact append_ne_of_take _ _ _ _ 1 hlen (by decide) (by rw [hv]; decide) e
      · have e : a ++ msg = "INVALID COMMAND --- " ++ msg := by simpa using h
        exact append_ne_of_take _ _ _ _ 1 hlen (by decide) (by rw [hv]; decide) e
    apply handleText_elim g num msg (fun r => (r.2 = _ ∨ r.2 = _) → r.1 = g)
    case hInvalid => intro _ _ _ _; rfl
    case hMalformed => intro _ _ _; rfl
    all_goals
      intros
      rename_i h
      exact absurd h (sep _ (by decide) (by decide))
  rw [main]
  exact ⟨rfl, rfl, rfl, rfl⟩

theorem rejected_keeps_targets_witness :
    (handleText { leftTrackSpeed := 10, rightTrackSpeed := 20, baseSpeed := 30,
                  leftTrackApplied := 1, rightTrackApplied := 2, baseApplied := 3 }
        0 "leftTrack:256").2 = [Effect.sendTXT 0 ("INVALID COMMAND --- " ++ "leftTrack:256")] ∧
    (handleText { leftTrackSpeed := 10, rightTrackSpeed := 20, baseSpeed := 30,
                  leftTrackApplied := 1, rightTrackApplied := 2, baseApplied := 3 }
        0 "leftTrack:256").1 =
      { leftTrackSpeed := 10, rightTrackSpeed := 20, baseSpeed := 30,
        leftTrackApplied := 1, rightTrackApplied := 2, baseApplied := 3 } :=
  ⟨by decide, (rejected_keeps_targets _ 0 "leftTrack:256" (Or.inr (by decide))).1⟩

/-- C8, as stated, fails on payloads with an embedded NUL character.  The
payload `stop`, NUL, `xyz` has no `:` and is none of the three tokens, yet it is
not rejected as malformed: it is accepted as a stop command and the targets
are zeroed.  The payload `a`, NUL, `:5` contains a `:` and the text before it is
no component name, yet the reply is the malformed one, not the invalid one,
because `indexOf` does not look past the NUL. -/
theorem nul_payload_rejections_differ :
    (':' ∉ ("stop\x00xyz" : String).data ∧ ("stop\x00xyz" : String) ≠ "stop" ∧
      ("stop\x00xyz" : String) ≠ "stopTracks" ∧ ("stop\x00xyz" : String) ≠ "stopBase" ∧
      (handleText { leftTrackSpeed := 100, rightTrackSpeed := -50, baseSpeed := 7,
                    leftTrackApplied := 1, rightTrackApplied := 2, baseApplied := 3 }
          0 "stop\x00xyz").1 =
        { leftTrackSpeed := 0, rightTrackSpeed := 0, baseSpeed := 0,
          leftTrackApplied := 1, rightTrackApplied := 2, baseApplied := 3 } ∧
      (handleText { leftTrackSpeed := 100, rightTrackSpeed := -50, baseSpeed := 7,
                    leftTrackApplied := 1, rightTrackApplied := 2, baseApplied := 3 }
          0 "stop\x00xyz").2 ≠
        [Effect.sendTXT 0 "MALFORMED COMMAND --- NO \":\" GIVEN"]) ∧
    (("a\x00:5" : String) = "a\x00" ++ ":" ++ "5" ∧ ':' ∉ ("a\x00" : String).data ∧
      ("a\x00" : String) ∉
        ["leftTrack", "rightTrack", "base", "forward", "turnRight", "turnLeft"] ∧
      handleText Globals.boot 0 "a\x00:5" =
        (Globals.boot, [Effect.sendTXT 0 "MALFORMED COMMAND --- NO \":\" GIVEN"]) ∧
      handleText Globals.boot 0 "a\x00:5" ≠
        (Globals.boot, [Effect.sendTXT 0 ("INVALID COMMAND --- " ++ "a\x00:5")])) := by
  decide

/-- C8, amended: for every text message without an embedded NUL character: if it
has no `:` and is none of `stop`, `stopTracks`, `stopBase`, it is rejected as
malformed; if it is `c:rest` where the part `c` before the first `:` is not one
of the six component names, it is rejected as an invalid command, whatever
`rest` is.  The malformed reply and the invalid reply are never the same
string.  `leftTrack10` is malformed and `leftTrackFoo:10` is invalid.  Both
rejections leave the globals unchanged. -/
theorem malformed_and_invalid_rejections_without_nul :
    (∀ (g : Globals) (num : Nat) (m : String), NUL ∉ m.data → ':' ∉ m.data →
      m ≠ "stop" → m ≠ "stopTracks" → m ≠ "stopBase" →
      handleText g num m = (g, [Effect.sendTXT num "MALFORMED COMMAND --- NO \":\" GIVEN"])) ∧
    (∀ (g : Globals) (num : Nat) (c rest : String), NUL ∉ (c ++ ":" ++ rest).data →
      ':' ∉ c.data →
      c ∉ ["leftTrack", "rightTrack", "base", "forward", "turnRight", "turnLeft"] →
      handleText g num (c ++ ":" ++ rest) =
        (g, [Effect.sendTXT num ("INVALID COMMAND --- " ++ (c ++ ":" ++ rest))])) ∧
    (∀ m : String, "INVALID COMMAND --- " ++ m ≠ "MALFORMED COMMAND --- NO \":\" GIVEN") ∧
    (∀ (g : Globals) (num : Nat),
      handleText g num "leftTrack10" =
        (g, [Effect.sendTXT num "MALFORMED COMMAND --- NO \":\" GIVEN"]) ∧
      handleText g num "leftTrackFoo:10" =
        (g, [Effect.sendTXT num "INVALID COMMAND --- leftTrackFoo:10"])) := by
  refine ⟨?_, ?_, invalid_ne_malformed, fun g num => ⟨rfl, rfl⟩⟩
  · intro g num m hn hc h1 h2 h3
    have hs : ¬ isStopToken m := by
      rintro (e | e | e)
      · exact h1 ((equals_iff_eq _ _ hn (by decide)).mp e)
      · exact h2 ((equals_iff_eq _ _ hn (by decide)).mp e)
      · exact h3 ((equals_iff_eq _ _ hn (by decide)).mp e)
    have hc2 : ':' ∉ cstr m := by rw [cstr_of_noNUL m hn]; exact hc
    exact handleText_malformed g num m hs ((indexOf_eq_neg_one_iff m).mpr hc2)
  · intro g num c rest hn hc hm
    have hnc : NUL ∉ c.data := by
      intro h
      apply hn
      rw [data_colon]
      exact List.mem_append_left _ h
    have hmem := colon_mem_cstr c rest hnc
    refine handleText_invalid g num _ (not_stopToken_of_colon _ hmem)
      (indexOfFrom_ne_neg_one ':' _ hmem 0) (fun h => hm ?_)
    have := h.1
    rwa [componentOf_colon c rest hc hnc] at this

theorem malformed_and_invalid_rejections_without_nul_witness :
    NUL ∉ ("base" : String).data ∧ ':' ∉ ("base" : String).data ∧
    handleText Globals.boot 0 "base" =
      (Globals.boot, [Effect.sendTXT 0 "MALFORMED COMMAND --- NO \":\" GIVEN"]) ∧
    NUL ∉ ("Base" ++ ":" ++ "10" : String).data ∧ ':' ∉ ("Base" : String).data ∧
    handleText Globals.boot 0 ("Base" ++ ":" ++ "10") =
      (Globals.boot, [Effect.sendTXT 0 ("INVALID COMMAND --- " ++ ("Base" ++ ":" ++ "10"))]) :=
  ⟨by decide, by decide,
    malformed_and_invalid_rejections_without_nul.1 Globals.boot 0 "base" (by decide)
      (by decide) (by decide) (by decide) (by decide),
    by decide, by decide,
    malformed_and_invalid_rejections_without_nul.2.1 Globals.boot 0 "Base" "10" (by decide)
      (by decide) (by decide)⟩

/-- C9, as stated, fails: the speed field `abc` is not empty after trimming and
is not a signed decimal integer, yet `leftTrack:abc` is not rejected.  `toInt`
reads it as 0, the VALID LEFT TRACK acknowledgment is sent and the left target
goes from 200 to 0. -/
theorem unparseable_speed_not_rejected :
    (trim "abc").length > 0 ∧ isSignedDecimal (trim "abc").data = false ∧
    handleText { leftTrackSpeed := 200, rightTrackSpeed := 20, baseSpeed := 30,
                 leftTrackApplied := 1, rightTrackApplied := 2, baseApplied := 3 }
        0 "leftTrack:abc" =
      ({ leftTrackSpeed := 0, rightTrackSpeed := 20, baseSpeed := 30,
         leftTrackApplied := 1, rightTrackApplied := 2, baseApplied := 3 },
        [Effect.sendTXT 0 "VALID LEFT TRACK COMMAND --- leftTrack:abc"]) ∧
    handleText { leftTrackSpeed := 200, rightTrackSpeed := 20, baseSpeed := 30,
                 leftTrackApplied := 1, rightTrackApplied := 2, baseApplied := 3 }
        0 "leftTrack:abc" ≠
      ({ leftTrackSpeed := 200, rightTrackSpeed := 20, baseSpeed := 30,
         leftTrackApplied := 1, rightTrackApplied := 2, baseApplied := 3 },
        [Effect.sendTXT 0 "INVALID COMMAND --- leftTrack:abc"]) := by
  decide

/-- C9, amended: for every recognised component `c` and every speed field that
is not empty after trimming and is not a signed decimal integer, the message
`c:field` is handled with the value `toInt` reads from the trimmed field (its
leading optionally signed digits, 0 when there are none): when that value is in
`[-255, 255]` the message is accepted with it, and only when the value is
outside `[-255, 255]` is the message rejected as InvalidCommand with every
global, so all three targets, unchanged.  A field that does not even begin with
a number reads as 0 and is therefore accepted. -/
theorem unparseable_speed_handled_by_toInt (g : Globals) (num : Nat) (c field : String)
    (hc : c ∈ components) (hne : (trim field).length > 0) :
    isSignedDecimal (trim field).data = false →
    handleText g num (c ++ ":" ++ field) =
      (if -255 ≤ toInt (trim field) ∧ toInt (trim field) ≤ 255 then
        (setTargets g c (toInt (trim field)),
          [Effect.sendTXT num (ackOf c ++ (c ++ ":" ++ field))])
      else (g, [Effect.sendTXT num ("INVALID COMMAND --- " ++ (c ++ ":" ++ field))])) ∧
    (beginsWithNumber (trim field).data = false →
      handleText g num (c ++ ":" ++ field) =
        (setTargets g c 0, [Effect.sendTXT num (ackOf c ++ (c ++ ":" ++ field))])) := by
  intro _
  have key := handleText_colon g num c field hc
  constructor
  · rw [key]
    by_cases hr : -255 ≤ toInt (trim field) ∧ toInt (trim field) ≤ 255
    · rw [if_pos hr, if_pos ⟨hne, hr.1, hr.2⟩]
    · rw [if_neg hr, if_neg (fun h => hr ⟨h.2.1, h.2.2⟩)]
  · intro hb
    have h0 := toInt_trim_of_not_number field hb
    rw [key, h0, if_pos ⟨hne, by decide, by decide⟩]

theorem unparseable_speed_handled_by_toInt_witness :
    "leftTrack" ∈ components ∧ (trim " 12abc").length > 0 ∧
    isSignedDecimal (trim " 12abc").data = false ∧
    handleText Globals.boot 0 ("leftTrack" ++ ":" ++ " 12abc") =
      (if -255 ≤ toInt (trim " 12abc") ∧ toInt (trim " 12abc") ≤ 255 then
        (setTargets Globals.boot "leftTrack" (toInt (trim " 12abc")),
          [Effect.sendTXT 0 (ackOf "leftTrack" ++ ("leftTrack" ++ ":" ++ " 12abc"))])
      else (Globals.boot,
        [Effect.sendTXT 0 ("INVALID COMMAND --- " ++ ("leftTrack" ++ ":" ++ " 12abc"))])) :=
  ⟨by decide, by decide, by decide,
    (unparseable_speed_handled_by_toInt Globals.boot 0 "leftTrack" " 12abc"
      (by decide) (by decide) (by decide)).1⟩

/-- C10: for every recognised component `c` and every speed field whose trimmed
text is not empty and does not begin with an optionally signed decimal number,
the message `c:field` is accepted and handled as speed 0: the component's VALID
acknowledgment is sent and the globals are those that `c:0` produces.  A field
that is empty after trimming (empty or only white space) is always rejected as
an invalid command, with the globals unchanged. -/
theorem parse_failure_is_speed_zero (g : Globals) (num : Nat) (c field : String)
    (hc : c ∈ components) :
    ((trim field).length > 0 → beginsWithNumber (trim field).data = false →
      handleText g num (c ++ ":" ++ field) =
        (setTargets g c 0, [Effect.sendTXT num (ackOf c ++ (c ++ ":" ++ field))]) ∧
      handleText g num (c ++ ":" ++ "0") =
        (setTargets g c 0, [Effect.sendTXT num (ackOf c ++ (c ++ ":" ++ "0"))]) ∧
      (handleText g num (c ++ ":" ++ field)).1 = (handleText g num (c ++ ":" ++ "0")).1) ∧
    ((trim field).length = 0 →
      handleText g num (c ++ ":" ++ field) =
        (g, [Effect.sendTXT num ("INVALID COMMAND --- " ++ (c ++ ":" ++ field))])) := by
  have key := handleText_colon g num c field hc
  constructor
  · intro hne hb
    have h0 := toInt_trim_of_not_number field hb
    have hz : handleText g num (c ++ ":" ++ "0") =
        (setTargets g c 0, [Effect.sendTXT num (ackOf c ++ (c ++ ":" ++ "0"))]) := by
      rw [handleText_colon g num c "0" hc, if_pos (by decide)]
      rfl
    have hf : handleText g num (c ++ ":" ++ field) =
        (setTargets g c 0, [Effect.sendTXT num (ackOf c ++ (c ++ ":" ++ field))]) := by
      rw [key, h0, if_pos ⟨hne, by decide, by decide⟩]
    exact ⟨hf, hz, by rw [hf, hz]⟩
  · intro he
    rw [key, if_neg (fun h => by omega)]

theorem parse_failure_is_speed_zero_witness :
    "turnLeft" ∈ components ∧ (trim " -x7 ").length > 0 ∧
    beginsWithNumber (trim " -x7 ").data = false ∧
    handleText { leftTrackSpeed := 10, rightTrackSpeed := 20, baseSpeed := 30,
                 leftTrackApplied := 1, rightTrackApplied := 2, baseApplied := 3 }
        0 ("turnLeft" ++ ":" ++ " -x7 ") =
      (setTargets { leftTrackSpeed := 10, rightTrackSpeed := 20, baseSpeed := 30,
                    leftTrackApplied := 1, rightTrackApplied := 2, baseApplied := 3 }
          "turnLeft" 0,
        [Effect.sendTXT 0 (ackOf "turnLeft" ++ ("turnLeft" ++ ":" ++ " -x7 "))]) ∧
    (trim "  ").length = 0 ∧
    handleText Globals.boot 0 ("turnLeft" ++ ":" ++ "  ") =
      (Globals.boot, [Effect.sendTXT 0 ("INVALID COMMAND --- " ++ ("turnLeft" ++ ":" ++ "  "))]) :=
  ⟨by decide, by decide, by decide,
    ((parse_failure_is_speed_zero _ 0 "turnLeft" " -x7 " (by decide)).1
      (by decide) (by decide)).1,
    by decide,
    (parse_failure_is_speed_zero Globals.boot 0 "turnLeft" "  " (by decide)).2 (by decide)⟩

/-! ## Deadzone and ramp -/

/-- C11: for every raw speed `r` in `[-255, 255]`, `normalizeSpeed r` is the
value of the deadzone rule: `r` when `r = 0` or `|r| ≥ 60`, 60 when
`0 < r < 60`, -60 when `-60 < r < 0`; the result is again in `[-255, 255]`. -/
theorem normalizeSpeed_eq_deadzoneRule (r : Int) (hlo : -255 ≤ r) (hhi : r ≤ 255) :
    normalizeSpeed r = deadzoneRule r ∧
    ((r = 0 ∨ abs r ≥ 60) → normalizeSpeed r = r) ∧
    ((0 < r ∧ r < 60) → normalizeSpeed r = 60) ∧
    ((-60 < r ∧ r < 0) → normalizeSpeed r = -60) ∧
    (-255 ≤ normalizeSpeed r ∧ normalizeSpeed r ≤ 255) := by
  unfold normalizeSpeed deadzoneRule abs
  refine ⟨?_, ?_, ?_, ?_, ?_⟩
  all_goals split_ifs <;> omega

theorem normalizeSpeed_eq_deadzoneRule_witness :
    (-255 : Int) ≤ -7 ∧ (-7 : Int) ≤ 255 ∧ normalizeSpeed (-7) = deadzoneRule (-7) ∧
    normalizeSpeed (-7) = -60 :=
  ⟨by decide, by decide,
    (normalizeSpeed_eq_deadzoneRule (-7) (by decide) (by decide)).1,
    (normalizeSpeed_eq_deadzoneRule (-7) (by decide) (by decide)).2.2.2.1 (by decide)⟩

theorem rampMotor_fst (a t : Int) (moveFn : Int → List Effect) :
    (rampMotor a t moveFn).1 = rampStep a t := rfl

/-- C12: for applied speed `a` and target `t` in `[-255, 255]` with `a ≠ t`, one
call of `rampMotor` yields `a'` strictly closer to the target,
`|a' - t| < |a - t|`, with `|a' - a| ≤ 3`; the sum or difference the code forms
before clamping stays within `[-258, 258]` and `a'` stays in `[-255, 255]`. -/
theorem rampMotor_strictly_closer (a t : Int) (moveFn : Int → List Effect)
    (ha : -255 ≤ a ∧ a ≤ 255) (ht : -255 ≤ t ∧ t ≤ 255) (hne : a ≠ t) :
    abs ((rampMotor a t moveFn).1 - t) < abs (a - t) ∧
    abs ((rampMotor a t moveFn).1 - a) ≤ 3 ∧
    (-258 ≤ a - STEP ∧ a + STEP ≤ 258) ∧
    (-255 ≤ (rampMotor a t moveFn).1 ∧ (rampMotor a t moveFn).1 ≤ 255) := by
  rw [rampMotor_fst]
  unfold rampStep abs STEP
  dsimp only
  refine ⟨?_, ?_, by omega, ?_⟩
  all_goals split_ifs <;> omega

theorem rampMotor_strictly_closer_witness :
    abs ((rampMotor 200 (-60) moveLeftTrack).1 - (-60)) < abs (200 - (-60)) ∧
    abs ((rampMotor 200 (-60) moveLeftTrack).1 - 200) ≤ 3 :=
  ⟨(rampMotor_strictly_closer 200 (-60) moveLeftTrack (by decide) (by decide) (by decide)).1,
    (rampMotor_strictly_closer 200 (-60) moveLeftTrack (by decide) (by decide) (by decide)).2.1⟩

/-- Closed form of repeated ramping: the applied speed moves by `3 * n` toward
the target and stops there. -/
theorem rampRepeat_closed (moveFn : Int → List Effect) (t : Int) (n : Nat) : ∀ a : Int,
    rampRepeat moveFn t n a = if a ≤ t then min (a + 3 * n) t else max (a - 3 * n) t := by
  induction n with
  | zero =>
    intro a
    simp only [rampRepeat]
    split_ifs <;> omega
  | succ n ih =>
    intro a
    rw [rampRepeat, ih, rampMotor_fst]
    unfold rampStep STEP
    dsimp only
    push_cast
    split_ifs <;> omega

/-- C13: for applied speed `a` and target `t` in `[-255, 255]`, iterating
`rampMotor` with the same target: after `n = ceil(|t - a| / 3)` calls the applied
speed is exactly `t`; after fewer calls it is not yet `t`; after any number of
calls it lies between `a` and `t`; from `n` calls on it stays `t`, and a call
made with applied `= t` returns `t`.  `n` is at most 170. -/
theorem rampMotor_converges_exactly (a t : Int) (moveFn : Int → List Effect)
    (ha : -255 ≤ a ∧ a ≤ 255) (ht : -255 ≤ t ∧ t ≤ 255) :
    rampRepeat moveFn t (rampTicks a t) a = t ∧
    (∀ k : Nat, k < rampTicks a t → rampRepeat moveFn t k a ≠ t) ∧
    (∀ k : Nat, min a t ≤ rampRepeat moveFn t k a ∧ rampRepeat moveFn t k a ≤ max a t) ∧
    (∀ k : Nat, rampTicks a t ≤ k → rampRepeat moveFn t k a = t) ∧
    (rampMotor t t moveFn).1 = t ∧
    rampTicks a t ≤ 170 := by
  have hn : ∀ k : Nat, k < rampTicks a t ↔ 3 * (k : Int) < abs (t - a) := by
    intro k
    unfold rampTicks abs
    split_ifs <;> omega
  have habs : abs (t - a) = if a ≤ t then t - a else a - t := by
    unfold abs
    split_ifs <;> omega
  refine ⟨?_, ?_, ?_, ?_, ?_, ?_⟩
  · have h := (hn (rampTicks a t)).not.mp (lt_irrefl _)
    rw [rampRepeat_closed, habs] at *
    split_ifs at * <;> omega
  · intro k hk
    have h := (hn k).mp hk
    rw [rampRepeat_closed]
    rw [habs] at h
    split_ifs at * <;> omega
  · intro k
    rw [rampRepeat_closed]
    split_ifs <;> omega
  · intro k hk
    have h := (hn k).not.mp (by omega)
    rw [rampRepeat_closed]
    rw [habs] at h
    split_ifs at * <;> omega
  · rw [rampMotor_fst]; unfold rampStep; simp
  · unfold rampTicks; omega

theorem rampMotor_converges_exactly_witness :
    rampTicks 200 0 = 67 ∧ rampRepeat moveLeftTrack 0 (rampTicks 200 0) 200 = 0 ∧
    rampRepeat moveLeftTrack 0 66 200 ≠ 0 :=
  ⟨by decide,
    (rampMotor_converges_exactly 200 0 moveLeftTrack (by decide) (by decide)).1,
    (rampMotor_converges_exactly 200 0 moveLeftTrack (by decide) (by decide)).2.1 66
      (by decide)⟩

/-! ## PWM driver -/

/-- C14: for every speed in `[-255, 255]`, `driveBTS7960(chA, chB, speed)` writes
`chA = speed`, `chB = 0` when `speed > 0`; `chA = 0`, `chB = |speed|` when
`speed < 0`; `chA = 0`, `chB = 0` when `speed = 0`.  For a speed above 255 it
writes what it writes for 255, and for a speed below -255 what it writes for
-255. -/
theorem driveBTS7960_duties (chA chB : Nat) (speed : Int) :
    (-255 ≤ speed → speed ≤ 255 →
      (speed > 0 →
        driveBTS7960 chA chB speed = [Effect.ledcWrite chA speed, Effect.ledcWrite chB 0]) ∧
      (speed < 0 →
        driveBTS7960 chA chB speed =
          [Effect.ledcWrite chA 0, Effect.ledcWrite chB (abs speed)]) ∧
      (speed = 0 →
        driveBTS7960 chA chB speed = [Effect.ledcWrite chA 0, Effect.ledcWrite chB 0])) ∧
    (speed > 255 →
      driveBTS7960 chA chB speed = driveBTS7960 chA chB 255 ∧
      driveBTS7960 chA chB speed = [Effect.ledcWrite chA 255, Effect.ledcWrite chB 0]) ∧
    (speed < -255 →
      driveBTS7960 chA chB speed = driveBTS7960 chA chB (-255) ∧
      driveBTS7960 chA chB speed = [Effect.ledcWrite chA 0, Effect.ledcWrite chB 255]) := by
  refine ⟨fun hlo hhi => ⟨fun h => ?_, fun h => ?_, fun h => ?_⟩, fun h => ?_, fun h => ?_⟩
  · have c : constrain speed (-255) 255 = speed := by
      unfold constrain; split_ifs <;> omega
    unfold driveBTS7960
    simp only [c, if_pos h]
  · have c : constrain speed (-255) 255 = speed := by
      unfold constrain; split_ifs <;> omega
    have a : abs speed = -speed := by
      unfold abs; rw [if_pos h]
    unfold driveBTS7960
    simp only [c, if_neg (show ¬ speed > 0 by omega), if_pos h, a]
  · subst h
    rfl
  · have c : constrain speed (-255) 255 = 255 := by
      unfold constrain; split_ifs <;> omega
    have e : driveBTS7960 chA chB speed =
        [Effect.ledcWrite chA 255, Effect.ledcWrite chB 0] := by
      unfold driveBTS7960
      simp only [c]
      rfl
    exact ⟨e.trans rfl, e⟩
  · have c : constrain speed (-255) 255 = -255 := by
      unfold constrain; rw [if_pos h]
    have e : driveBTS7960 chA chB speed =
        [Effect.ledcWrite chA 0, Effect.ledcWrite chB 255] := by
      unfold driveBTS7960
      simp only [c]
      rfl
    exact ⟨e.trans rfl, e⟩

theorem driveBTS7960_duties_witness :
    driveBTS7960 0 1 (-150) = [Effect.ledcWrite 0 0, Effect.ledcWrite 1 (abs (-150))] ∧
    driveBTS7960 4 5 300 = [Effect.ledcWrite 4 255, Effect.ledcWrite 5 0] :=
  ⟨((driveBTS7960_duties 0 1 (-150)).1 (by decide) (by decide)).2.1 (by decide),
    ((driveBTS7960_duties 4 5 300).2.1 (by decide)).2⟩

/-- C20: for every speed, in particular every 32-bit one, values outside
`[-255, 255]` and `INT_MIN` included, `driveBTS7960` writes the first channel
once and then the second channel once, both duties are in `[0, 255]`, and at
least one of them is 0, so the two halves of the bridge are never driven
together.  The value negated is the clamped one, so `-speed` cannot overflow. -/
theorem driveBTS7960_safe (lpwmCh rpwmCh : Nat) (speed : Int) :
    (∃ dl dr : Int,
      driveBTS7960 lpwmCh rpwmCh speed =
        [Effect.ledcWrite lpwmCh dl, Effect.ledcWrite rpwmCh dr] ∧
      (0 ≤ dl ∧ dl ≤ 255) ∧ (0 ≤ dr ∧ dr ≤ 255) ∧ (dl = 0 ∨ dr = 0)) ∧
    (-255 ≤ constrain speed (-255) 255 ∧ constrain speed (-255) 255 ≤ 255) ∧
    driveBTS7960 lpwmCh rpwmCh (-2147483648) =
      [Effect.ledcWrite lpwmCh 0, Effect.ledcWrite rpwmCh 255] ∧
    driveBTS7960 lpwmCh rpwmCh 2147483647 =
      [Effect.ledcWrite lpwmCh 255, Effect.ledcWrite rpwmCh 0] := by
  have c : -255 ≤ constrain speed (-255) 255 ∧ constrain speed (-255) 255 ≤ 255 := by
    unfold constrain; split_ifs <;> omega
  refine ⟨?_, c, rfl, rfl⟩
  unfold driveBTS7960
  dsimp only
  split_ifs with h1 h2
  · exact ⟨_, _, rfl, ⟨by omega, c.2⟩, ⟨le_refl _, by decide⟩, Or.inr rfl⟩
  · exact ⟨_, _, rfl, ⟨le_refl _, by decide⟩, ⟨by omega, by omega⟩, Or.inl rfl⟩
  · exact ⟨_, _, rfl, ⟨le_refl _, by decide⟩, ⟨le_refl _, by decide⟩, Or.inl rfl⟩

/-! ## Control loop -/

theorem driveBTS7960_in_range (a b : Nat) (x : Int) (h : -255 ≤ x ∧ x ≤ 255) :
    driveBTS7960 a b x = [Effect.ledcWrite a (max x 0), Effect.ledcWrite b (max (-x) 0)] := by
  have c : constrain x (-255) 255 = x := by
    unfold constrain; split_ifs <;> omega
  unfold driveBTS7960
  simp only [c]
  split_ifs with h1 h2
  · rw [max_eq_left (by omega), max_eq_right (by omega)]
  · rw [max_eq_right (by omega), max_eq_left (by omega)]
  · have : x = 0 := by omega
    subst this
    rfl

/-- Channel writes of one control tick from a state in range: the six channels
in the order 0 to 5, each pair carrying the new applied speed of its actuator. -/
theorem loop_writes (g : Globals) (h : InRange g) :
    (loop g).2 =
      [Effect.ledcWrite 0 (max (loop g).1.leftTrackApplied 0),
       Effect.ledcWrite 1 (max (-(loop g).1.leftTrackApplied) 0),
       Effect.ledcWrite 2 (max (loop g).1.rightTrackApplied 0),
       Effect.ledcWrite 3 (max (-(loop g).1.rightTrackApplied) 0),
       Effect.ledcWrite 4 (max (loop g).1.baseApplied 0),
       Effect.ledcWrite 5 (max (-(loop g).1.baseApplied) 0)] := by
  obtain ⟨_, _, _, h4, h5, h6⟩ := loop_inRange g h
  have e : (loop g).2 =
      driveBTS7960 0 1 (loop g).1.leftTrackApplied ++
      driveBTS7960 2 3 (loop g).1.rightTrackApplied ++
      driveBTS7960 4 5 (loop g).1.baseApplied := rfl
  rw [e, driveBTS7960_in_range 0 1 _ h4, driveBTS7960_in_range 2 3 _ h5,
    driveBTS7960_in_range 4 5 _ h6]
  rfl

/-- C19: for every state with targets and applied speeds in `[-255, 255]`, the
motor part of `loop` sets each applied speed to the one-step ramp of its old
value toward `normalizeSpeed` of its own target, which depends on no other
actuator; it keeps the three targets; and it writes, in this order, the left
track (channels 0, 1), the right track (channels 2, 3) and the base
(channels 4, 5), each as `driveBTS7960` of the new applied speed, whether or
not that speed changed: six channel writes in all. -/
theorem loop_one_tick (g : Globals) (h : InRange g) :
    (loop g).1 =
      { g with
        leftTrackApplied := rampStep g.leftTrackApplied (normalizeSpeed g.leftTrackSpeed),
        rightTrackApplied := rampStep g.rightTrackApplied (normalizeSpeed g.rightTrackSpeed),
        baseApplied := rampStep g.baseApplied (normalizeSpeed g.baseSpeed) } ∧
    (∀ g2 : Globals,
      (g2.leftTrackApplied = g.leftTrackApplied → g2.leftTrackSpeed = g.leftTrackSpeed →
        (loop g2).1.leftTrackApplied = (loop g).1.leftTrackApplied) ∧
      (g2.rightTrackApplied = g.rightTrackApplied → g2.rightTrackSpeed = g.rightTrackSpeed →
        (loop g2).1.rightTrackApplied = (loop g).1.rightTrackApplied) ∧
      (g2.baseApplied = g.baseApplied → g2.baseSpeed = g.baseSpeed →
        (loop g2).1.baseApplied = (loop g).1.baseApplied)) ∧
    ((loop g).1.leftTrackSpeed = g.leftTrackSpeed ∧
      (loop g).1.rightTrackSpeed = g.rightTrackSpeed ∧
      (loop g).1.baseSpeed = g.baseSpeed) ∧
    (loop g).2 =
      driveBTS7960 0 1 (loop g).1.leftTrackApplied ++
      driveBTS7960 2 3 (loop g).1.rightTrackApplied ++
      driveBTS7960 4 5 (loop g).1.baseApplied ∧
    (loop g).2 =
      [Effect.ledcWrite 0 (max (loop g).1.leftTrackApplied 0),
       Effect.ledcWrite 1 (max (-(loop g).1.leftTrackApplied) 0),
       Effect.ledcWrite 2 (max (loop g).1.rightTrackApplied 0),
       Effect.ledcWrite 3 (max (-(loop g).1.rightTrackApplied) 0),
       Effect.ledcWrite 4 (max (loop g).1.baseApplied 0),
       Effect.ledcWrite 5 (max (-(loop g).1.baseApplied) 0)] := by
  refine ⟨rfl, fun g2 => ⟨?_, ?_, ?_⟩, ⟨rfl, rfl, rfl⟩, rfl, loop_writes g h⟩
  · intro e1 e2
    show rampStep _ _ = rampStep _ _
    rw [e1, e2]
  · intro e1 e2
    show rampStep _ _ = rampStep _ _
    rw [e1, e2]
  · intro e1 e2
    show rampStep _ _ = rampStep _ _
    rw [e1, e2]

theorem loop_one_tick_witness :
    InRange { leftTrackSpeed := 100, rightTrackSpeed := 0, baseSpeed := -7,
              leftTrackApplied := 100, rightTrackApplied := 2, baseApplied := 0 } ∧
    (loop { leftTrackSpeed := 100, rightTrackSpeed := 0, baseSpeed := -7,
            leftTrackApplied := 100, rightTrackApplied := 2, baseApplied := 0 }).1 =
      { leftTrackSpeed := 100, rightTrackSpeed := 0, baseSpeed := -7,
        leftTrackApplied := 100, rightTrackApplied := 0, baseApplied := -3 } ∧
    (loop { leftTrackSpeed := 100, rightTrackSpeed := 0, baseSpeed := -7,
            leftTrackApplied := 100, rightTrackApplied := 2, baseApplied := 0 }).2 =
      [Effect.ledcWrite 0 100, Effect.ledcWrite 1 0, Effect.ledcWrite 2 0,
       Effect.ledcWrite 3 0, Effect.ledcWrite 4 0, Effect.ledcWrite 5 3] :=
  ⟨by decide,
    (loop_one_tick _ (by decide)).1.trans (by decide),
    (loop_one_tick _ (by decide)).2.2.2.2.trans (by decide)⟩

/-- After `k` control ticks with nothing in between, the targets are as before and
every applied speed is the `k`-fold ramp toward its normalised target. -/
theorem run_ticks (k : Nat) : ∀ g : Globals,
    (run g (List.replicate k Event.tick)).1 =
      { g with
        leftTrackApplied :=
          rampRepeat moveLeftTrack (normalizeSpeed g.leftTrackSpeed) k g.leftTrackApplied,
        rightTrackApplied :=
          rampRepeat moveRightTrack (normalizeSpeed g.rightTrackSpeed) k g.rightTrackApplied,
        baseApplied := rampRepeat rotateBase (normalizeSpeed g.baseSpeed) k g.baseApplied } := by
  induction k with
  | zero => intro g; rfl
  | succ k ih =>
    intro g
    show (run (loop g).1 (List.replicate k Event.tick)).1 = _
    rw [ih]
    rfl

theorem rampRepeat_reaches (moveFn : Int → List Effect) (a t : Int) (k : Nat)
    (ha : -255 ≤ a ∧ a ≤ 255) (ht : -255 ≤ t ∧ t ≤ 255) (hk : 170 ≤ k) :
    rampRepeat moveFn t k a = t := by
  rw [rampRepeat_closed]
  split_ifs <;> omega

theorem ticks_converge (g : Globals) (h : InRange g) (k : Nat) (hk : 170 ≤ k) :
    (run g (List.replicate k Event.tick)).1 =
      { g with
        leftTrackApplied := normalizeSpeed g.leftTrackSpeed,
        rightTrackApplied := normalizeSpeed g.rightTrackSpeed,
        baseApplied := normalizeSpeed g.baseSpeed } := by
  obtain ⟨h1, h2, h3, h4, h5, h6⟩ := h
  rw [run_ticks,
    rampRepeat_reaches _ _ _ k h4 (normalizeSpeed_range _ h1) hk,
    rampRepeat_reaches _ _ _ k h5 (normalizeSpeed_range _ h2) hk,
    rampRepeat_reaches _ _ _ k h6 (normalizeSpeed_range _ h3) hk]

/-- C15: from every state whose targets and applied speeds lie in
`[-255, 255]`, after `k ≥ 170` control ticks with no event in between each
applied speed equals `normalizeSpeed` of its target (the targets are
unchanged).  Hence after `forward:100` and the ticks the left and right applied
speeds are 100; after `turnRight:80` left applied is 80 and right applied is 0;
after `stop` all three applied speeds are 0. -/
theorem applied_converges_to_normalized (g : Globals) (h : InRange g) (k : Nat)
    (hk : 170 ≤ k) :
    ((run g (List.replicate k Event.tick)).1.leftTrackApplied = normalizeSpeed g.leftTrackSpeed ∧
      (run g (List.replicate k Event.tick)).1.rightTrackApplied =
        normalizeSpeed g.rightTrackSpeed ∧
      (run g (List.replicate k Event.tick)).1.baseApplied = normalizeSpeed g.baseSpeed) ∧
    (∀ num : Nat,
      ((run g (Event.ws num WStype.TEXT "forward:100" ::
          List.replicate k Event.tick)).1.leftTrackApplied = 100 ∧
        (run g (Event.ws num WStype.TEXT "forward:100" ::
          List.replicate k Event.tick)).1.rightTrackApplied = 100) ∧
      ((run g (Event.ws num WStype.TEXT "turnRight:80" ::
          List.replicate k Event.tick)).1.leftTrackApplied = 80 ∧
        (run g (Event.ws num WStype.TEXT "turnRight:80" ::
          List.replicate k Event.tick)).1.rightTrackApplied = 0) ∧
      ((run g (Event.ws num WStype.TEXT "stop" ::
          List.replicate k Event.tick)).1.leftTrackApplied = 0 ∧
        (run g (Event.ws num WStype.TEXT "stop" ::
          List.replicate k Event.tick)).1.rightTrackApplied = 0 ∧
        (run g (Event.ws num WStype.TEXT "stop" ::
          List.replicate k Event.tick)).1.baseApplied = 0)) := by
  have after : ∀ (num : Nat) (msg : String),
      (run g (Event.ws num WStype.TEXT msg :: List.replicate k Event.tick)).1 =
        { (handleText g num msg).1 with
          leftTrackApplied := normalizeSpeed (handleText g num msg).1.leftTrackSpeed,
          rightTrackApplied := normalizeSpeed (handleText g num msg).1.rightTrackSpeed,
          baseApplied := normalizeSpeed (handleText g num msg).1.baseSpeed } := by
    intro num msg
    show (run (handleText g num msg).1 (List.replicate k Event.tick)).1 = _
    exact ticks_converge _ (handleText_inRange g num msg h) k hk
  refine ⟨?_, fun num => ⟨?_, ?_, ?_⟩⟩
  · rw [ticks_converge g h k hk]
    exact ⟨rfl, rfl, rfl⟩
  · rw [after]; exact ⟨rfl, rfl⟩
  · rw [after]; exact ⟨rfl, rfl⟩
  · rw [after]; exact ⟨rfl, rfl, rfl⟩

theorem applied_converges_to_normalized_witness :
    InRange { leftTrackSpeed := -255, rightTrackSpeed := 5, baseSpeed := 0,
              leftTrackApplied := 255, rightTrackApplied := -255, baseApplied := 40 } ∧
    (run { leftTrackSpeed := -255, rightTrackSpeed := 5, baseSpeed := 0,
           leftTrackApplied := 255, rightTrackApplied := -255, baseApplied := 40 }
        (List.replicate 170 Event.tick)).1.leftTrackApplied = normalizeSpeed (-255) ∧
    (run { leftTrackSpeed := -255, rightTrackSpeed := 5, baseSpeed := 0,
           leftTrackApplied := 255, rightTrackApplied := -255, baseApplied := 40 }
        (List.replicate 170 Event.tick)).1.rightTrackApplied = normalizeSpeed 5 :=
  ⟨by decide,
    (applied_converges_to_normalized _ (by decide) 170 (by decide)).1.1,
    (applied_converges_to_normalized _ (by decide) 170 (by decide)).1.2.1⟩

theorem handleText_keeps_applied (g : Globals) (num : Nat) (msg : String) :
    (handleText g num msg).1.leftTrackApplied = g.leftTrackApplied ∧
    (handleText g num msg).1.rightTrackApplied = g.rightTrackApplied ∧
    (handleText g num msg).1.baseApplied = g.baseApplied := by
  apply handleText_elim g num msg
    (fun r => r.1.leftTrackApplied = g.leftTrackApplied ∧
      r.1.rightTrackApplied = g.rightTrackApplied ∧ r.1.baseApplied = g.baseApplied)
  all_goals
    intros
    exact ⟨rfl, rfl, rfl⟩

/-- C16: for every state and every WebSocket event (a text message, accepted or
rejected, a connect, a disconnect, a binary message, any other event type), the
three applied speeds after `webSocketEvent` are those before it. -/
theorem webSocketEvent_keeps_applied (g : Globals) (num : Nat) (type : WStype)
    (payload : String) :
    (webSocketEvent g num type payload).1.leftTrackApplied = g.leftTrackApplied ∧
    (webSocketEvent g num type payload).1.rightTrackApplied = g.rightTrackApplied ∧
    (webSocketEvent g num type payload).1.baseApplied = g.baseApplied := by
  cases type
  case TEXT => exact handleText_keeps_applied g num payload
  all_goals exact ⟨rfl, rfl, rfl⟩

/-! ## Replies -/

/-- The one frame the text handler sends is `replyOf` of the message. -/
theorem handleText_reply (g : Globals) (num : Nat) (msg : String) :
    (handleText g num msg).2 = [Effect.sendTXT num (replyOf msg)] := by
  have acc : ∀ c : String, ¬ isStopToken msg → indexOf msg ':' ≠ -1 → componentOf msg = c →
      c ∈ components → speedValidOf msg → replyOf msg = ackOf c ++ msg := by
    intro c hs hi hc hm hv
    unfold replyOf
    rw [if_neg hs, if_neg hi, if_pos ⟨by rw [hc]; exact hm, hv⟩, hc]
  apply handleText_elim g num msg (fun r => r.2 = _)
  case hStop =>
    intro e
    unfold replyOf
    rw [if_pos (show isStopToken msg from Or.inl e)]
  case hTracks =>
    intro e
    unfold replyOf
    rw [if_pos (show isStopToken msg from Or.inr (Or.inl e))]
  case hBase =>
    intro e
    unfold replyOf
    rw [if_pos (show isStopToken msg from Or.inr (Or.inr e))]
  case hInvalid =>
    intro hs hi hn
    unfold replyOf
    rw [if_neg hs, if_neg hi, if_neg hn]
  case hMalformed =>
    intro hs hi
    unfold replyOf
    rw [if_neg hs, if_pos hi]
  all_goals
    intro hs hi hc hv
    rw [acc _ hs hi hc (by decide) hv]
    rfl

theorem beginsWith_append (p a m : String) (h : p.data <+: a.data) : beginsWith p (a ++ m) := by
  unfold beginsWith
  rw [String.data_append]
  exact h.trans (List.prefix_append _ _)

theorem endsWith_append (q a m : String) (h : q.data <:+ a.data) :
    endsWith (q ++ m) (a ++ m) := by
  unfold endsWith
  obtain ⟨u, hu⟩ := h
  refine ⟨u, ?_⟩
  rw [String.data_append, String.data_append, ← hu, List.append_assoc]

theorem not_beginsWith_append (p a m : String) (hlen : p.data.length ≤ a.data.length)
    (h : ¬ p.data <+: a.data) : ¬ beginsWith p (a ++ m) := by
  unfold beginsWith
  rw [String.data_append]
  intro hp
  exact h (List.prefix_of_prefix_length_le hp (List.prefix_append _ _) hlen)

theorem ackOf_shape (c m : String) :
    beginsWith "VALID " (ackOf c ++ m) ∧ endsWith (" --- " ++ m) (ackOf c ++ m) := by
  unfold ackOf
  split_ifs <;>
    exact ⟨beginsWith_append _ _ _ (by decide), endsWith_append _ _ _ (by decide)⟩

/-- C18, as stated, fails on payloads with an embedded NUL character.  The
payload `stop`, NUL, `xyz` contains no `:` and is none of the three stop tokens,
yet the one reply sent begins with `VALID ` and is not the MALFORMED COMMAND
text.  The payload `a`, NUL, `:5` contains a `:` and is not accepted, yet the
reply is the MALFORMED COMMAND text, not `INVALID COMMAND --- ` followed by the
message. -/
theorem nul_payload_reply_mismatch :
    (':' ∉ ("stop\x00xyz" : String).data ∧ ("stop\x00xyz" : String) ≠ "stop" ∧
      ("stop\x00xyz" : String) ≠ "stopTracks" ∧ ("stop\x00xyz" : String) ≠ "stopBase" ∧
      (handleText Globals.boot 0 "stop\x00xyz").2 =
        [Effect.sendTXT 0 (replyOf "stop\x00xyz")] ∧
      beginsWith "VALID " (replyOf "stop\x00xyz") ∧
      replyOf "stop\x00xyz" ≠ "MALFORMED COMMAND --- NO \":\" GIVEN") ∧
    (':' ∈ ("a\x00:5" : String).data ∧ ¬ validCommand "a\x00:5" ∧
      (handleText Globals.boot 0 "a\x00:5").2 =
        [Effect.sendTXT 0 (replyOf "a\x00:5")] ∧
      replyOf "a\x00:5" = "MALFORMED COMMAND --- NO \":\" GIVEN" ∧
      replyOf "a\x00:5" ≠ "INVALID COMMAND --- " ++ "a\x00:5") := by
  refine ⟨⟨by decide, by decide, by decide, by decide, by decide, ?_, by decide⟩,
    by decide, by decide, by decide, by decide, by decide⟩
  unfold beginsWith
  decide

/-- C18, amended: for every text message `m` without an embedded NUL character
and every prior state the handler sends exactly one frame, whose text depends
on `m` alone.  The text begins with `VALID ` and ends with ` --- ` followed by
`m` if and only if `m` is accepted (the flag `validCommand` is set); it is
`INVALID COMMAND --- ` followed by `m` if and only if `m` contains `:` and is not
accepted; it is the MALFORMED COMMAND text if and only if `m` contains no `:`
and is none of `stop`, `stopTracks`, `stopBase`. -/
theorem one_reply_matching_outcome_without_nul (g : Globals) (num : Nat) (m : String)
    (hn : NUL ∉ m.data) :
    (handleText g num m).2 = [Effect.sendTXT num (replyOf m)] ∧
    ((beginsWith "VALID " (replyOf m) ∧ endsWith (" --- " ++ m) (replyOf m)) ↔
      validCommand m) ∧
    (replyOf m = "INVALID COMMAND --- " ++ m ↔ (':' ∈ m.data ∧ ¬ validCommand m)) ∧
    (replyOf m = "MALFORMED COMMAND --- NO \":\" GIVEN" ↔
      (':' ∉ m.data ∧ m ≠ "stop" ∧ m ≠ "stopTracks" ∧ m ≠ "stopBase")) ∧
    (∀ g2 : Globals, (handleText g2 num m).2 = (handleText g num m).2) := by
  have hcs : cstr m = m.data := cstr_of_noNUL m hn
  have htok : isStopToken m ↔ (m = "stop" ∨ m = "stopTracks" ∨ m = "stopBase") := by
    unfold isStopToken
    rw [equals_iff_eq _ _ hn (by decide), equals_iff_eq _ _ hn (by decide),
      equals_iff_eq _ _ hn (by decide)]
  have hcolon : indexOf m ':' = -1 ↔ ':' ∉ m.data := by
    rw [indexOf_eq_neg_one_iff, hcs]
  refine ⟨handleText_reply g num m, ?_, ?_, ?_, fun g2 => ?_⟩
  rotate_right
  · rw [handleText_reply, handleText_reply]
  all_goals
    by_cases hs : isStopToken m
    · have hc : ':' ∉ m.data := fun h => not_stopToken_of_colon m (by rw [hcs]; exact h) hs
      have hv : validCommand m := Or.inl hs
      have e : replyOf m = "VALID STOP COMMAND --- " ++ m := by
        unfold replyOf; rw [if_pos hs]
      rw [e]
      first
      | exact ⟨fun _ => hv, fun _ =>
          ⟨beginsWith_append _ _ _ (by decide), endsWith_append _ _ _ (by decide)⟩⟩
      | exact ⟨fun h => absurd h (stop_ne_invalid _ _), fun h => absurd h.1 hc⟩
      | exact ⟨fun h => absurd h (stop_ne_malformed _), fun h => absurd (htok.mp hs)
          (by
            rintro (e1 | e1 | e1)
            · exact h.2.1 e1
            · exact h.2.2.1 e1
            · exact h.2.2.2 e1)⟩
    · have hs2 : m ≠ "stop" ∧ m ≠ "stopTracks" ∧ m ≠ "stopBase" :=
        ⟨fun e1 => hs (htok.mpr (Or.inl e1)), fun e1 => hs (htok.mpr (Or.inr (Or.inl e1))),
          fun e1 => hs (htok.mpr (Or.inr (Or.inr e1)))⟩
      by_cases hi : indexOf m ':' = -1
      · have hc : ':' ∉ m.data := hcolon.mp hi
        have hv : ¬ validCommand m := by
          rintro (h | h)
          · exact hs h
          · exact h.1 hi
        have e : replyOf m = "MALFORMED COMMAND --- NO \":\" GIVEN" := by
          unfold replyOf; rw [if_neg hs, if_pos hi]
        rw [e]
        first
        | exact ⟨fun h => absurd h.1 (by unfold beginsWith; decide), fun h => absurd h hv⟩
        | exact ⟨fun h => absurd h.symm (invalid_ne_malformed _), fun h => absurd h.1 hc⟩
        | exact ⟨fun _ => ⟨hc, hs2⟩, fun _ => rfl⟩
      · have hc : ':' ∈ m.data := by
          by_contra h
          exact hi (hcolon.mpr h)
        by_cases ha : componentOf m ∈ components ∧ speedValidOf m
        · have hv : validCommand m := Or.inr ⟨hi, ha.1, ha.2⟩
          have e : replyOf m = ackOf (componentOf m) ++ m := by
            unfold replyOf; rw [if_neg hs, if_neg hi, if_pos ha]
          rw [e]
          first
          | exact ⟨fun _ => hv, fun _ => ackOf_shape _ _⟩
          | exact ⟨fun h => absurd h (ack_ne_invalid _ _ _), fun h => absurd hv h.2⟩
          | exact ⟨fun h => absurd h (ack_ne_malformed _ _), fun h => absurd hc h.1⟩
        · have hv : ¬ validCommand m := by
            rintro (h | h)
            · exact hs h
            · exact ha ⟨h.2.1, h.2.2⟩
          have e : replyOf m = "INVALID COMMAND --- " ++ m := by
            unfold replyOf; rw [if_neg hs, if_neg hi, if_neg ha]
          rw [e]
          first
          | exact ⟨fun h => absurd h.1
              (not_beginsWith_append _ _ _ (by decide) (by decide)), fun h => absurd h hv⟩
          | exact ⟨fun _ => ⟨hc, hv⟩, fun _ => rfl⟩
          | exact ⟨fun h => absurd h (invalid_ne_malformed _), fun h => absurd hc h.1⟩

theorem one_reply_matching_outcome_without_nul_witness :
    NUL ∉ ("turnLeft:300" : String).data ∧
    (handleText Globals.boot 0 "turnLeft:300").2 =
      [Effect.sendTXT 0 (replyOf "turnLeft:300")] ∧
    (replyOf "turnLeft:300" = "INVALID COMMAND --- " ++ "turnLeft:300" ↔
      (':' ∈ ("turnLeft:300" : String).data ∧ ¬ validCommand "turnLeft:300")) ∧
    replyOf "turnLeft:300" = "INVALID COMMAND --- turnLeft:300" :=
  ⟨by decide,
    (one_reply_matching_outcome_without_nul Globals.boot 0 "turnLeft:300" (by decide)).1,
    (one_reply_matching_outcome_without_nul Globals.boot 0 "turnLeft:300"
      (by decide)).2.2.1,
    by decide⟩

/-! ## Applied speed and channel duties -/

theorem duties_append (d : Nat → Int) (a b : List Effect) :
    duties d (a ++ b) = duties (duties d a) b := by
  unfold duties
  rw [List.foldl_append]

theorem run_cons (g : Globals) (e : Event) (es : List Event) :
    run g (e :: es) = ((run (step g e).1 es).1, (step g e).2 ++ (run (step g e).1 es).2) := rfl

/-- A control tick from a state in range leaves every channel pair carrying the
new applied speed. -/
theorem loop_commanded (g : Globals) (d : Nat → Int) (h : InRange g) :
    Commanded (loop g).1 (duties d (loop g).2) := by
  obtain ⟨_, _, _, h4, h5, h6⟩ := loop_inRange g h
  rw [loop_writes g h]
  unfold Commanded moveLeftTrack moveRightTrack rotateBase
  rw [driveBTS7960_in_range _ _ _ h4, driveBTS7960_in_range _ _ _ h5,
    driveBTS7960_in_range _ _ _ h6]
  simp [duties, writeDuty, LEFT_L_CH, LEFT_R_CH, RIGHT_L_CH, RIGHT_R_CH, BASE_L_CH, BASE_R_CH]

/-- Events other than a disconnect keep the applied speeds in step with the
channel duties. -/
theorem step_commanded (g : Globals) (d : Nat → Int) (e : Event) (h : InRange g)
    (hc : Commanded g d)
    (hd : ∀ (num : Nat) (payload : String), e ≠ Event.ws num WStype.DISCONNECTED payload) :
    Commanded (step g e).1 (duties d (step g e).2) := by
  cases e with
  | tick => exact loop_commanded g d h
  | ws num type payload =>
    cases type
    case DISCONNECTED => exact absurd rfl (hd num payload)
    case TEXT =>
      show Commanded (handleText g num payload).1 (duties d (handleText g num payload).2)
      obtain ⟨a1, a2, a3⟩ := handleText_keeps_applied g num payload
      rw [handleText_reply]
      unfold Commanded
      rw [a1, a2, a3]
      exact hc
    all_goals exact hc

theorem run_commanded (es : List Event) : ∀ (g : Globals) (d : Nat → Int), InRange g →
    Commanded g d →
    (∀ e ∈ es, ∀ (num : Nat) (payload : String),
      e ≠ Event.ws num WStype.DISCONNECTED payload) →
    Commanded (run g es).1 (duties d (run g es).2) := by
  induction es with
  | nil => intro g d _ hc _; exact hc
  | cons e es ih =>
    intro g d h hc hd
    rw [run_cons]
    dsimp only
    rw [duties_append]
    exact ih _ _ (step_inRange g e h)
      (step_commanded g d e h hc (hd e (List.mem_cons_self _ _)))
      (fun e2 he2 => hd e2 (List.mem_cons_of_mem _ he2))

/-- C17 (code defect): after `forward:100`, one control tick and a disconnect
from boot, the left applied speed is 3 while both left-track channels carry
duty 0, where `driveBTS7960` of 3 puts duty 3 on channel 0: the applied speed is
not the commanded value.  In runs from boot without a disconnect event the
duty pairs do equal the `driveBTS7960` mapping of the applied speeds. -/
theorem disconnect_breaks_commanded :
    (run Globals.boot [Event.ws 0 WStype.TEXT "forward:100", Event.tick,
        Event.ws 0 WStype.DISCONNECTED ""]).1.leftTrackApplied = 3 ∧
    duties (fun _ => 0) (run Globals.boot [Event.ws 0 WStype.TEXT "forward:100", Event.tick,
        Event.ws 0 WStype.DISCONNECTED ""]).2 LEFT_L_CH = 0 ∧
    duties (fun _ => 0) (run Globals.boot [Event.ws 0 WStype.TEXT "forward:100", Event.tick,
        Event.ws 0 WStype.DISCONNECTED ""]).2 LEFT_R_CH = 0 ∧
    moveLeftTrack 3 = [Effect.ledcWrite LEFT_L_CH 3, Effect.ledcWrite LEFT_R_CH 0] ∧
    ¬ Commanded
        (run Globals.boot [Event.ws 0 WStype.TEXT "forward:100", Event.tick,
          Event.ws 0 WStype.DISCONNECTED ""]).1
        (duties (fun _ => 0) (run Globals.boot [Event.ws 0 WStype.TEXT "forward:100",
          Event.tick, Event.ws 0 WStype.DISCONNECTED ""]).2) ∧
    (∀ es : List Event,
      (∀ e ∈ es, ∀ (num : Nat) (payload : String),
        e ≠ Event.ws num WStype.DISCONNECTED payload) →
      Commanded (run Globals.boot es).1 (duties (fun _ => 0) (run Globals.boot es).2)) := by
  refine ⟨by decide, by decide, by decide, by decide, by decide, fun es hd => ?_⟩
  exact run_commanded es Globals.boot _ boot_inRange (by decide) hd

end Excavator
